import Mathlib

/-!
Verification of the collection-management tools of the chroma_mcp server
(src/chroma_mcp/tools/collection_tools.py) against its specification.

Python strings are modelled as lists of characters, Python dictionaries as
association lists in insertion order, JSON values as an inductive type, and
exceptions as an inductive type of the exception classes the module
distinguishes.  Each tool implementation function is translated into a pure
Lean function parameterised by an environment describing the behaviour of the
externally-owned ChromaDB client and of the helper functions imported from
modules outside the excerpt.  Each implementation returns the MCP-level
outcome (a successful content list or the ErrorData of the raised McpError)
together with the ordered trace of calls made into the external client.
-/

namespace ChromaMcp

/-- Python strings are modelled as lists of characters. -/
abbrev Str := List Char

/-- Coercion from Lean string literals to the character-list model. -/
def chars (x : String) : Str := x.data

/-- Model of Python str.lower (ASCII case folding, which is what the
collection-name and error-message strings involved use). -/
def lowerStr (x : Str) : Str := x.map Char.toLower

/-- Model of Python str.replace for single characters, as used with
key.replace(":", "_") and key.replace("_", ":"). -/
def replaceChar (a b : Char) (x : Str) : Str :=
  x.map (fun c => if c = a then b else c)

/-- Model of Python startswith on the character-list model. -/
def hasPrefixL : Str → Str → Bool
  | _, [] => true
  | [], _ :: _ => false
  | c :: cs, p :: ps => c = p && hasPrefixL cs ps

/-- Model of the Python substring test needle in hay. -/
def containsSub : Str → Str → Bool
  | hay, needle =>
    hasPrefixL hay needle ||
      (match hay with
       | [] => false
       | _ :: t => containsSub t needle)

/-- JSON values as handled by the json module.  Numbers are modelled as
integers: every number serialised by this code is a Python int (collection
counts, pagination parameters). -/
inductive Json where
  | null
  | bool (b : Bool)
  | num (n : Int)
  | str (s : Str)
  | arr (elems : List Json)
  | obj (fields : List (Str × Json))

/-- Decimal digits of a natural number, most significant first, written with
explicit fuel so the recursion is structural. -/
def natCharsAux : Nat → Nat → Str → Str
  | 0, _, acc => acc
  | Nat.succ fuel, n, acc =>
    let d := Char.ofNat (48 + n % 10)
    if n < 10 then d :: acc else natCharsAux fuel (n / 10) (d :: acc)

/-- Decimal representation of a natural number. -/
def natChars (n : Nat) : Str := natCharsAux (n + 1) n []

/-- Decimal representation of an integer, as Python str builds it. -/
def intChars : Int → Str
  | Int.ofNat n => natChars n
  | Int.negSucc n => '-' :: natChars (n + 1)

/-- JSON string escaping of one character (quote and backslash; other
characters of the strings this module serialises need no escaping). -/
def escChar (c : Char) : Str :=
  if c = '"' then ['\\', '"']
  else if c = '\\' then ['\\', '\\']
  else [c]

/-- JSON string escaping. -/
def escStr (x : Str) : Str := x.flatMap escChar

mutual

/-- Model of json.dumps on the JSON value model.  The indent=2 whitespace of
the Python calls is omitted: it never affects which JSON value the text
denotes, and no claim depends on it. -/
def Json.dumps : Json → Str
  | .null => chars "null"
  | .bool b => if b then chars "true" else chars "false"
  | .num n => intChars n
  | .str s => '"' :: escStr s ++ ['"']
  | .arr elems => '[' :: Json.dumpsArr elems ++ [']']
  | .obj fields => Char.ofNat 123 :: Json.dumpsObj fields ++ [Char.ofNat 125]

/-- Comma-separated serialisation of array elements. -/
def Json.dumpsArr : List Json → Str
  | [] => []
  | [x] => Json.dumps x
  | x :: y :: rest => Json.dumps x ++ ',' :: ' ' :: Json.dumpsArr (y :: rest)

/-- Comma-separated serialisation of object fields. -/
def Json.dumpsObj : List (Str × Json) → Str
  | [] => []
  | [(k, v)] => '"' :: escStr k ++ '"' :: ':' :: ' ' :: Json.dumps v
  | (k, v) :: kv :: rest =>
      '"' :: escStr k ++ '"' :: ':' :: ' ' :: Json.dumps v ++
        ',' :: ' ' :: Json.dumpsObj (kv :: rest)

end

/-! ## Error model -/

/-- JSON-RPC error code INVALID_PARAMS as exported by mcp.types. -/
def INVALID_PARAMS : Int := -32602

/-- JSON-RPC error code INTERNAL_ERROR as exported by mcp.types. -/
def INTERNAL_ERROR : Int := -32603

/-- Model of mcp.types.ErrorData restricted to the fields this module sets. -/
structure ErrorData where
  code : Int
  message : Str
deriving DecidableEq

/-- Model of mcp.types.TextContent restricted to the fields this module sets
(the type field is always the literal text). -/
structure TextContent where
  type : Str
  text : Str
deriving DecidableEq

/-- The exception classes the module distinguishes in its except clauses.
Every constructor is a subclass of Python Exception; BaseExceptions that are
not Exceptions (KeyboardInterrupt, SystemExit) are outside the model, as they
are outside any exception the client API is specified to raise.  The payload
is the result of str(e).  JSONDecodeError is a ValueError and only arises at
the json.loads site, which is modelled separately, so it needs no
constructor. -/
inductive Exc where
  | validationError (msg : Str)
  | valueError (msg : Str)
  | invalidDimension (msg : Str)
  | mcpError (code : Int) (msg : Str)
  | otherExc (msg : Str)
deriving DecidableEq

/-- Python str(e) for a caught exception. -/
def excStr : Exc → Str
  | .validationError m => m
  | .valueError m => m
  | .invalidDimension m => m
  | .mcpError _ m => m
  | .otherExc m => m

/-- Whether an except ValidationError clause catches the exception. -/
def isValidationError : Exc → Bool
  | .validationError _ => true
  | _ => false

/-- Modelled from the spec: whether an except ValueError clause catches the
exception.  The class ValidationError is defined in utils/errors.py, which is
not part of the source excerpt, so whether it subclasses ValueError cannot be
read off the source; the spec routes name-validation failures to the
invalid-parameter code in every tool, which in the tools without a dedicated
ValidationError clause (get, delete, peek) requires the ValueError clause to
catch it, so ValidationError is modelled as a ValueError subclass. -/
def isValueError : Exc → Bool
  | .valueError _ => true
  | .validationError _ => true
  | _ => false

/-- Whether an except InvalidDimensionException clause catches the
exception. -/
def isInvalidDimension : Exc → Bool
  | .invalidDimension _ => true
  | _ => false

/-- Whether an except McpError clause catches the exception. -/
def isMcpError : Exc → Bool
  | .mcpError _ _ => true
  | _ => false

/-! ## Client model -/

/-- One call into the externally-owned ChromaDB library: a method invoked on
the client object or on a collection object it returned, with the arguments
the module passes. -/
inductive Call where
  | createCollection (name : Str) (metadata : List (Str × Json))
  | listCollections
  | getCollection (name : Str)
  | deleteCollection (name : Str)
  | count
  | peek (limit : Nat)
  | modify (newName : Str)

/-- Behaviour of a collection object returned by the client: its attributes
and the outcome of each method the module may invoke on it.  The id field
holds str(collection.id); peek results are dicts of JSON-ready values (numpy
arrays are modelled as already-converted JSON arrays) or None. -/
structure CollectionObj where
  name : Str
  id : Str
  metadata : Option (List (Str × Json))
  countResult : Except Exc Int
  peekResult : Nat → Except Exc (Option (List (Str × Json)))
  modifyResult : Str → Except Exc Unit

/-- Behaviour of the world outside the translated module: the externally-owned
client, the json module, and the helpers imported from repository modules that
are not part of the excerpt (utils/config.py, utils/client.py).  An error
value means the corresponding call raises that exception. -/
structure Env where
  /-- Modelled from the spec: validate_collection_name (utils/config.py is not
  in the excerpt) checks the name and raises ValidationError with some message
  on failure; some msg models that failure. -/
  validate : Str → Option Str
  /-- Outcome of get_chroma_client (utils/client.py is not in the excerpt);
  the client object itself carries no data the module reads. -/
  chromaClient : Except Exc Unit
  /-- Outcome of get_embedding_function (utils/client.py is not in the
  excerpt). -/
  embeddingFn : Except Exc Unit
  /-- Modelled from the spec: get_collection_settings (utils/config.py is not
  in the excerpt) returns the default settings dictionary. -/
  settings : List (Str × Json)
  /-- Behaviour of json.loads on the metadata string: a JSON value, or the
  message of the JSONDecodeError it raises. -/
  loads : Str → Except Str Json
  /-- Outcome of client.create_collection for a given name and metadata. -/
  createResult : Str → List (Str × Json) → Except Exc CollectionObj
  /-- Outcome of client.list_collections (Chroma at least 0.6.0: a list of
  names). -/
  listResult : Except Exc (List Str)
  /-- Outcome of client.get_collection for a given name. -/
  getResult : Str → Except Exc CollectionObj
  /-- Outcome of client.delete_collection for a given name. -/
  deleteResult : Str → Except Exc Unit

/-! ## Python dictionary operations -/

/-- Whether a dictionary has a key. -/
def hasKey (d : List (Str × Json)) (k : Str) : Bool :=
  d.any (fun kv => kv.1 = k)

/-- Python dictionary assignment d[k] = v: an existing key keeps its
insertion position, a new key is appended. -/
def dictAssign (d : List (Str × Json)) (k : Str) (v : Json) :
    List (Str × Json) :=
  if hasKey d k then d.map (fun kv => if kv.1 = k then (k, v) else kv)
  else d ++ [(k, v)]

/-- Python del d[k] (keys are unique in a Python dictionary, so removing
every binding of the key is the same operation). -/
def removeKey (d : List (Str × Json)) (k : Str) : List (Str × Json) :=
  d.filter (fun kv => !(kv.1 = k : Bool))

/-- Dictionary lookup d.get(k). -/
def lookupKey (d : List (Str × Json)) (k : Str) : Option Json :=
  (d.find? (fun kv => kv.1 = k)).map (fun kv => kv.2)

/-! ## Metadata reconstruction (collection_tools.py lines 119-149) -/

/-- Loop body of _reconstruct_metadata: route one key/value pair into the
reconstructed dictionary or the settings dictionary. -/
def reconstructStep (acc : List (Str × Json) × List (Str × Json))
    (kv : Str × Json) : List (Str × Json) × List (Str × Json) :=
  let (reconstructed, settings) := acc
  let (key, value) := kv
  if hasPrefixL key (chars "chroma:setting:") then
    let originalKey :=
      replaceChar '_' ':' (key.drop (chars "chroma:setting:").length)
    (reconstructed, dictAssign settings originalKey value)
  else if hasPrefixL key (chars "hnsw:") then
    (reconstructed, dictAssign settings key value)
  else if key = chars "description" then
    (dictAssign reconstructed key value, settings)
  else if !(hasPrefixL key (chars "chroma:")) then
    (dictAssign reconstructed key value, settings)
  else
    (reconstructed, settings)

/-- Translation of _reconstruct_metadata.  A missing metadata attribute
(None) and an empty dictionary are both falsy, so both yield the empty
dictionary. -/
def _reconstruct_metadata (metadata : Option (List (Str × Json))) :
    List (Str × Json) :=
  match metadata with
  | none => []
  | some m =>
    if m.isEmpty then []
    else
      let rs := m.foldl reconstructStep ([], [])
      if rs.2.isEmpty then rs.1
      else dictAssign rs.1 (chars "settings") (.obj rs.2)

/-- The metadata-flattening comprehension of _create_collection_impl line
181: each default-settings key k is stored as chroma:setting:k with colons
replaced by underscores. -/
def flattenSettings (settings : List (Str × Json)) : List (Str × Json) :=
  settings.map
    (fun kv => (chars "chroma:setting:" ++ replaceChar ':' '_' kv.1, kv.2))

/-! ## Implementation functions

Each Python implementation is split into the body of its try block (which
yields the success value or the exception it raises, plus the trace of client
calls) and the handler that its except clauses apply to a caught exception.
Logging calls are no-ops in the model. -/

/-- Outcome of a try body: the produced value or the raised exception, with
the ordered client calls made before returning or raising. -/
abbrev TryResult := Except Exc (List TextContent) × List Call

/-- Outcome of a whole tool call: the returned content list or the ErrorData
of the McpError it raises, with the client-call trace. -/
abbrev ToolResult := Except ErrorData (List TextContent) × List Call

/-- Apply an exception handler to the outcome of a try body. -/
def wrapErr (handler : Exc → ErrorData) : TryResult → ToolResult
  | (.ok v, tr) => (.ok v, tr)
  | (.error e, tr) => (.error (handler e), tr)

/-- Input model CreateCollectionInput. -/
structure CreateCollectionInput where
  collection_name : Str

/-- Input model CreateCollectionWithMetadataInput. -/
structure CreateCollectionWithMetadataInput where
  collection_name : Str
  metadata : Str

/-- Input model ListCollectionsInput; the Pydantic constraints ge=0 make both
numbers naturals. -/
structure ListCollectionsInput where
  limit : Option Nat
  offset : Option Nat
  name_contains : Option Str

/-- Input model GetCollectionInput. -/
structure GetCollectionInput where
  collection_name : Str

/-- Input model RenameCollectionInput. -/
structure RenameCollectionInput where
  collection_name : Str
  new_name : Str

/-- Input model DeleteCollectionInput. -/
structure DeleteCollectionInput where
  collection_name : Str

/-- Input model PeekCollectionInput; the Pydantic constraint ge=1 makes the
limit a natural. -/
structure PeekCollectionInput where
  collection_name : Str
  limit : Option Nat

/-- Try body of _create_collection_impl (lines 168-202): validate the name,
obtain client and embedding function, flatten the default settings, create
the collection, read its count and shape the JSON result. -/
def createTryBody (env : Env) (collection_name : Str) : TryResult :=
  match env.validate collection_name with
  | some msg => (.error (.validationError msg), [])
  | none =>
  match env.chromaClient with
  | .error e => (.error e, [])
  | .ok _ =>
  match env.embeddingFn with
  | .error e => (.error e, [])
  | .ok _ =>
  let finalMetadata := flattenSettings env.settings
  match env.createResult collection_name finalMetadata with
  | .error e => (.error e, [.createCollection collection_name finalMetadata])
  | .ok collection =>
  match collection.countResult with
  | .error e =>
    (.error e, [.createCollection collection_name finalMetadata, .count])
  | .ok count =>
  let resultData : Json := .obj
    [(chars "name", .str collection.name),
     (chars "id", .str collection.id),
     (chars "metadata", .obj (_reconstruct_metadata collection.metadata)),
     (chars "count", .num count)]
  (.ok [⟨chars "text", resultData.dumps⟩],
   [.createCollection collection_name finalMetadata, .count])

/-- Except clauses of _create_collection_impl (lines 204-238). -/
def createHandler (collection_name : Str) (e : Exc) : ErrorData :=
  if isValidationError e then
    ⟨INVALID_PARAMS, chars "Validation Error: " ++ excStr e⟩
  else if isValueError e then
    if containsSub (excStr e)
        (chars "Collection " ++ collection_name ++ chars " already exists.")
    then
      ⟨INVALID_PARAMS, chars "Tool Error: Collection \x27" ++ collection_name
        ++ chars "\x27 already exists."⟩
    else
      ⟨INVALID_PARAMS,
        chars "Tool Error: Invalid parameter during collection creation. Details: "
          ++ excStr e⟩
  else if isInvalidDimension e then
    ⟨INTERNAL_ERROR,
      chars "ChromaDB Error: Invalid dimension configuration. " ++ excStr e⟩
  else
    ⟨INTERNAL_ERROR,
      chars "Tool Error: An unexpected error occurred while creating collection \x27"
        ++ collection_name ++ chars "\x27. Details: " ++ excStr e⟩

/-- Translation of _create_collection_impl. -/
def _create_collection_impl (env : Env) (input : CreateCollectionInput) :
    ToolResult :=
  wrapErr (createHandler input.collection_name)
    (createTryBody env input.collection_name)

/-- Try body of _list_collections_impl (lines 261-296).  The comprehension
guard name_contains and nc.lower() in name.lower() sits under the outer
truthiness test of name_contains, so its first conjunct is always true when
the filter runs. -/
def listTryBody (env : Env) (limit offset : Option Nat)
    (name_contains : Option Str) : TryResult :=
  match env.chromaClient with
  | .error e => (.error e, [])
  | .ok _ =>
  match env.listResult with
  | .error e => (.error e, [.listCollections])
  | .ok allCollectionNames =>
  let filteredNames :=
    match name_contains with
    | none => allCollectionNames
    | some nc =>
      if nc = [] then allCollectionNames
      else allCollectionNames.filter
        (fun name => containsSub (lowerStr name) (lowerStr nc))
  let totalMatchingCount := filteredNames.length
  let startIndex := match offset with | some o => o | none => 0
  let paginatedNames :=
    match limit with
    | some l => (filteredNames.drop startIndex).take l
    | none => filteredNames.drop startIndex
  let resultData : Json := .obj
    [(chars "collection_names", .arr (paginatedNames.map .str)),
     (chars "total_count", .num totalMatchingCount),
     (chars "limit", match limit with | some l => .num l | none => .null),
     (chars "offset", match offset with | some o => .num o | none => .null)]
  (.ok [⟨chars "text", resultData.dumps⟩], [.listCollections])

/-- Except clause of _list_collections_impl (lines 298-303). -/
def listHandler (e : Exc) : ErrorData :=
  ⟨INTERNAL_ERROR,
    chars "Tool Error: Error listing collections. Details: " ++ excStr e⟩

/-- Translation of _list_collections_impl. -/
def _list_collections_impl (env : Env) (input : ListCollectionsInput) :
    ToolResult :=
  wrapErr listHandler
    (listTryBody env input.limit input.offset input.name_contains)

/-- The sample_entries value of _get_collection_impl (lines 327-336): the
peek result with any embeddings entry removed, or an error dictionary when
the inner try caught an exception from peek. -/
def getPeekProcessed (pr : Except Exc (Option (List (Str × Json)))) : Json :=
  match pr with
  | .error peekErr =>
    .obj [(chars "error", .str (chars "Could not peek: " ++ excStr peekErr))]
  | .ok none => .null
  | .ok (some d) =>
    if !d.isEmpty && hasKey d (chars "embeddings") then
      .obj (removeKey d (chars "embeddings"))
    else .obj d

/-- Try body of _get_collection_impl (lines 319-347). -/
def getTryBody (env : Env) (collection_name : Str) : TryResult :=
  match env.validate collection_name with
  | some msg => (.error (.validationError msg), [])
  | none =>
  match env.chromaClient with
  | .error e => (.error e, [])
  | .ok _ =>
  match env.embeddingFn with
  | .error e => (.error e, [])
  | .ok _ =>
  match env.getResult collection_name with
  | .error e => (.error e, [.getCollection collection_name])
  | .ok collection =>
  match collection.countResult with
  | .error e => (.error e, [.getCollection collection_name, .count])
  | .ok count =>
  let sampleEntries := getPeekProcessed (collection.peekResult 5)
  let resultData : Json := .obj
    [(chars "name", .str collection.name),
     (chars "id", .str collection.id),
     (chars "metadata", .obj (_reconstruct_metadata collection.metadata)),
     (chars "count", .num count),
     (chars "sample_entries", sampleEntries)]
  (.ok [⟨chars "text", resultData.dumps⟩],
   [.getCollection collection_name, .count, .peek 5])

/-- Except clauses of _get_collection_impl (lines 349-379). -/
def getHandler (collection_name : Str) (e : Exc) : ErrorData :=
  if isValueError e then
    let errorStr := lowerStr (excStr e)
    let notFound :=
      containsSub errorStr
          (chars "collection " ++ collection_name ++ chars " does not exist.")
        || containsSub errorStr
          (chars "collection " ++ collection_name ++ chars " not found")
    if notFound then
      ⟨INVALID_PARAMS, chars "Tool Error: Collection \x27" ++ collection_name
        ++ chars "\x27 not found."⟩
    else
      ⟨INVALID_PARAMS,
        chars "Tool Error: Invalid parameter getting collection. Details: "
          ++ excStr e⟩
  else
    ⟨INTERNAL_ERROR,
      chars "Tool Error: An unexpected error occurred while getting collection \x27"
        ++ collection_name ++ chars "\x27. Details: " ++ excStr e⟩

/-- Translation of _get_collection_impl. -/
def _get_collection_impl (env : Env) (input : GetCollectionInput) :
    ToolResult :=
  wrapErr (getHandler input.collection_name)
    (getTryBody env input.collection_name)

/-- Try body of _rename_collection_impl (lines 396-414): validate both names,
fetch the original collection, then modify its name. -/
def renameTryBody (env : Env) (original_name new_name : Str) : TryResult :=
  match env.validate original_name with
  | some msg => (.error (.validationError msg), [])
  | none =>
  match env.validate new_name with
  | some msg => (.error (.validationError msg), [])
  | none =>
  match env.chromaClient with
  | .error e => (.error e, [])
  | .ok _ =>
  match env.getResult original_name with
  | .error e => (.error e, [.getCollection original_name])
  | .ok collection =>
  match collection.modifyResult new_name with
  | .error e => (.error e, [.getCollection original_name, .modify new_name])
  | .ok _ =>
  (.ok [⟨chars "text",
      chars "Collection \x27" ++ original_name
        ++ chars "\x27 successfully renamed to \x27" ++ new_name
        ++ chars "\x27."⟩],
   [.getCollection original_name, .modify new_name])

/-- Except clauses of _rename_collection_impl (lines 416-459). -/
def renameHandler (original_name new_name : Str) (e : Exc) : ErrorData :=
  if isValidationError e then
    ⟨INVALID_PARAMS, chars "Validation Error: " ++ excStr e⟩
  else if isValueError e then
    let errorStr := lowerStr (excStr e)
    let originalNotFound :=
      containsSub errorStr
          (chars "collection " ++ original_name ++ chars " does not exist.")
        || containsSub errorStr
          (chars "collection " ++ original_name ++ chars " not found")
    if originalNotFound then
      ⟨INVALID_PARAMS, chars "Tool Error: Collection \x27" ++ original_name
        ++ chars "\x27 not found."⟩
    else
      let newNameExists :=
        containsSub errorStr
          (chars "collection " ++ new_name ++ chars " already exists.")
      if newNameExists then
        ⟨INVALID_PARAMS, chars "Tool Error: Collection name \x27" ++ new_name
          ++ chars "\x27 already exists."⟩
      else
        ⟨INVALID_PARAMS,
          chars "Tool Error: Invalid parameter during rename. Details: "
            ++ excStr e⟩
  else
    ⟨INTERNAL_ERROR,
      chars "Tool Error: An unexpected error occurred renaming collection \x27"
        ++ original_name ++ chars "\x27. Details: " ++ excStr e⟩

/-- Translation of _rename_collection_impl. -/
def _rename_collection_impl (env : Env) (input : RenameCollectionInput) :
    ToolResult :=
  wrapErr (renameHandler input.collection_name input.new_name)
    (renameTryBody env input.collection_name input.new_name)

/-- Try body of _delete_collection_impl (lines 475-485). -/
def deleteTryBody (env : Env) (collection_name : Str) : TryResult :=
  match env.validate collection_name with
  | some msg => (.error (.validationError msg), [])
  | none =>
  match env.chromaClient with
  | .error e => (.error e, [])
  | .ok _ =>
  match env.deleteResult collection_name with
  | .error e => (.error e, [.deleteCollection collection_name])
  | .ok _ =>
  (.ok [⟨chars "text",
      chars "Collection \x27" ++ collection_name
        ++ chars "\x27 deleted successfully."⟩],
   [.deleteCollection collection_name])

/-- Except clauses of _delete_collection_impl (lines 487-517). -/
def deleteHandler (collection_name : Str) (e : Exc) : ErrorData :=
  if isValueError e then
    let errorStr := lowerStr (excStr e)
    let notFound :=
      containsSub errorStr
          (chars "collection " ++ collection_name ++ chars " does not exist.")
        || containsSub errorStr
          (chars "collection named " ++ collection_name
            ++ chars " does not exist")
    if notFound then
      ⟨INVALID_PARAMS, chars "Tool Error: Collection \x27" ++ collection_name
        ++ chars "\x27 not found."⟩
    else
      ⟨INVALID_PARAMS,
        chars "Tool Error: Invalid parameter deleting collection. Details: "
          ++ excStr e⟩
  else
    ⟨INTERNAL_ERROR,
      chars "Tool Error: An unexpected error occurred deleting collection \x27"
        ++ collection_name ++ chars "\x27. Details: " ++ excStr e⟩

/-- Translation of _delete_collection_impl. -/
def _delete_collection_impl (env : Env) (input : DeleteCollectionInput) :
    ToolResult :=
  wrapErr (deleteHandler input.collection_name)
    (deleteTryBody env input.collection_name)

/-- Model of hasattr(x, "tolist"): numpy arrays are modelled as
already-converted JSON arrays, so no value of the model has a tolist
attribute. -/
def hasTolist (_ : Json) : Bool := false

/-- Model of x.tolist(); unreachable since hasTolist is false on the whole
model, kept so the translation mirrors the source expression. -/
def tolist (v : Json) : Json := v

/-- One item of the embeddings or distances conversion loops of
_peek_collection_impl (lines 552-583): a nested list has its members
converted, a value with a tolist attribute is converted, anything else is
kept. -/
def convertPeekItem (item : Json) : Json :=
  match item with
  | .arr inner =>
    .arr (inner.map (fun arrV => if hasTolist arrV then tolist arrV else arrV))
  | item => if hasTolist item then tolist item else item

/-- The whole embeddings or distances conversion loop applied to the field
value (always a list when present; iteration over non-list values is outside
the model). -/
def convertPeekValue (v : Json) : Json :=
  match v with
  | .arr items => .arr (items.map convertPeekItem)
  | v => v

/-- Conversion of one field of the processed peek dictionary, guarded by
presence and by the is-not-None test. -/
def convertPeekField (d : List (Str × Json)) (k : Str) : List (Str × Json) :=
  match lookupKey d k with
  | none => d
  | some .null => d
  | some v => dictAssign d k (convertPeekValue v)

/-- The limit passed to peek: the validated limit, or the explicit default 10
when none was provided (line 541). -/
def peekEffLimit (limit : Option Nat) : Nat :=
  match limit with
  | some l => l
  | none => 10

/-- Try body of _peek_collection_impl (lines 534-587): fetch the collection,
peek with the given limit (10 when absent), convert array-valued fields and
serialise. -/
def peekTryBody (env : Env) (collection_name : Str) (limit : Option Nat) :
    TryResult :=
  match env.validate collection_name with
  | some msg => (.error (.validationError msg), [])
  | none =>
  match env.chromaClient with
  | .error e => (.error e, [])
  | .ok _ =>
  match env.getResult collection_name with
  | .error e => (.error e, [.getCollection collection_name])
  | .ok collection =>
  match collection.peekResult (peekEffLimit limit) with
  | .error e =>
    (.error e, [.getCollection collection_name, .peek (peekEffLimit limit)])
  | .ok peekResults =>
  let processedPeek := match peekResults with | some d => d | none => []
  let processedPeek := convertPeekField processedPeek (chars "embeddings")
  let processedPeek := convertPeekField processedPeek (chars "distances")
  (.ok [⟨chars "text", (Json.obj processedPeek).dumps⟩],
   [.getCollection collection_name, .peek (peekEffLimit limit)])

/-- Except clauses of _peek_collection_impl (lines 589-620). -/
def peekHandler (collection_name : Str) (e : Exc) : ErrorData :=
  if isValueError e then
    let errorStr := lowerStr (excStr e)
    let notFound :=
      containsSub errorStr
          (chars "collection " ++ collection_name ++ chars " does not exist.")
        || containsSub errorStr
          (chars "collection " ++ collection_name ++ chars " not found")
    if notFound then
      ⟨INVALID_PARAMS, chars "Tool Error: Collection \x27" ++ collection_name
        ++ chars "\x27 not found."⟩
    else
      ⟨INVALID_PARAMS, chars "Tool Error: Problem accessing collection \x27"
        ++ collection_name ++ chars "\x27. Details: " ++ excStr e⟩
  else
    ⟨INTERNAL_ERROR,
      chars "Tool Error: An unexpected error occurred peeking collection \x27"
        ++ collection_name ++ chars "\x27. Details: " ++ excStr e⟩

/-- Translation of _peek_collection_impl. -/
def _peek_collection_impl (env : Env) (input : PeekCollectionInput) :
    ToolResult :=
  wrapErr (peekHandler input.collection_name)
    (peekTryBody env input.collection_name input.limit)

/-- Try body of _create_collection_with_metadata_impl (lines 648-695).  The
nested try around json.loads is resolved inline: a decode failure or a
non-dictionary value raises McpError with INVALID_PARAMS, which the outer
except McpError clause re-raises unchanged. -/
def createWithMetadataTryBody (env : Env)
    (collection_name metadata_str : Str) : TryResult :=
  match env.loads metadata_str with
  | .error msg =>
    (.error (.mcpError INVALID_PARAMS
      (chars "Invalid JSON format for metadata field: " ++ msg)), [])
  | .ok j =>
  match j with
  | .obj metadataDict =>
    (match env.validate collection_name with
     | some msg => (.error (.validationError msg), [])
     | none =>
     match env.embeddingFn with
     | .error e => (.error e, [])
     | .ok _ =>
     match env.chromaClient with
     | .error e => (.error e, [])
     | .ok _ =>
     match env.createResult collection_name metadataDict with
     | .error e =>
       (.error e, [.createCollection collection_name metadataDict])
     | .ok collection =>
     match collection.countResult with
     | .error e =>
       (.error e, [.createCollection collection_name metadataDict, .count])
     | .ok count =>
     let resultDict : Json := .obj
       [(chars "name", .str collection.name),
        (chars "id", .str collection.id),
        (chars "metadata", .obj (_reconstruct_metadata collection.metadata)),
        (chars "count", .num count),
        (chars "status", .str (chars "success"))]
     (.ok [⟨chars "text", resultDict.dumps⟩],
      [.createCollection collection_name metadataDict, .count]))
  | _ =>
    (.error (.mcpError INVALID_PARAMS
      (chars "Metadata string must decode to a JSON object (dictionary).")),
     [])

/-- Except clauses of _create_collection_with_metadata_impl (lines 697-719):
ValidationError is mapped, McpError is re-raised unchanged, and any other
exception is string-matched for the already-exists pattern. -/
def createWithMetadataHandler (collection_name : Str) (e : Exc) : ErrorData :=
  if isValidationError e then
    ⟨INVALID_PARAMS, chars "Validation Error: " ++ excStr e⟩
  else
    match e with
    | .mcpError code msg => ⟨code, msg⟩
    | _ =>
      if containsSub (excStr e)
          (chars "Collection " ++ collection_name ++ chars " already exists.")
      then
        ⟨INVALID_PARAMS, chars "Tool Error: Collection \x27" ++ collection_name
          ++ chars "\x27 already exists."⟩
      else
        ⟨INTERNAL_ERROR,
          chars "Tool Error: An unexpected error occurred while creating collection \x27"
            ++ collection_name ++ chars "\x27. Details: " ++ excStr e⟩

/-- Translation of _create_collection_with_metadata_impl. -/
def _create_collection_with_metadata_impl (env : Env)
    (input : CreateCollectionWithMetadataInput) : ToolResult :=
  wrapErr (createWithMetadataHandler input.collection_name)
    (createWithMetadataTryBody env input.collection_name input.metadata)

/-! ## Observations on tool results -/

/-- Whether the tool call returned normally. -/
def isOkT (r : ToolResult) : Bool :=
  match r.1 with
  | .ok _ => true
  | .error _ => false

/-- The code of the raised McpError, if one was raised. -/
def resCode (r : ToolResult) : Option Int :=
  match r.1 with
  | .error d => some d.code
  | .ok _ => none

/-- The message of the raised McpError, if one was raised. -/
def resMessage (r : ToolResult) : Option Str :=
  match r.1 with
  | .error d => some d.message
  | .ok _ => none

/-- The returned content list of a normal return (empty on error). -/
def resContent (r : ToolResult) : List TextContent :=
  match r.1 with
  | .ok l => l
  | .error _ => []

/-- The error envelope the spec promises: one of the two codes, with a
non-empty message. -/
def goodED (d : ErrorData) : Prop :=
  (d.code = INVALID_PARAMS ∨ d.code = INTERNAL_ERROR) ∧ d.message ≠ []

/-! ## Generic lemmas -/

theorem append_ne_nil_left {a b : Str} (h : a ≠ []) : a ++ b ≠ [] := by
  intro h2
  exact h (List.append_eq_nil.mp h2).1

theorem hasPrefixL_iff (l p : Str) :
    hasPrefixL l p = true ↔ ∃ post, l = p ++ post := by
  induction p generalizing l with
  | nil => simp [hasPrefixL]
  | cons c cs ih =>
    cases l with
    | nil => simp [hasPrefixL]
    | cons a as =>
      simp only [hasPrefixL, Bool.and_eq_true, decide_eq_true_eq, ih]
      constructor
      · rintro ⟨rfl, post, rfl⟩
        exact ⟨post, rfl⟩
      · rintro ⟨post, h⟩
        rw [List.cons_append] at h
        obtain ⟨rfl, rfl⟩ := List.cons.inj h
        exact ⟨rfl, post, rfl⟩

/-- The substring test of the model means exactly that the needle occurs
contiguously inside the hay, as Python needle in hay does. -/
theorem containsSub_iff (hay needle : Str) :
    containsSub hay needle = true ↔ ∃ pre post, hay = pre ++ needle ++ post := by
  induction hay with
  | nil =>
    rw [containsSub]
    constructor
    · intro h
      simp only [Bool.or_eq_true, hasPrefixL_iff] at h
      rcases h with ⟨post, hp⟩ | h
      · exact ⟨[], post, by simpa using hp⟩
      · cases h
    · rintro ⟨pre, post, hp⟩
      rcases List.append_eq_nil.mp hp.symm with ⟨h1, h2⟩
      rcases List.append_eq_nil.mp h1 with ⟨h3, h4⟩
      subst h4
      simp [hasPrefixL]
  | cons a as ih =>
    rw [containsSub]
    simp only [Bool.or_eq_true, hasPrefixL_iff, ih]
    constructor
    · rintro (⟨post, h⟩ | ⟨pre, post, h⟩)
      · exact ⟨[], post, by simpa using h⟩
      · exact ⟨a :: pre, post, by simp [h]⟩
    · rintro ⟨pre, post, h⟩
      cases pre with
      | nil => exact Or.inl ⟨post, by simpa using h⟩
      | cons x xs =>
        right
        rw [List.cons_append, List.cons_append] at h
        obtain ⟨rfl, h2⟩ := List.cons.inj h
        exact ⟨xs, post, by simpa using h2⟩

theorem wrapErr_ok_iff {f : Exc → ErrorData} {p : TryResult}
    {r : List TextContent} {tr : List Call} :
    wrapErr f p = (.ok r, tr) ↔ p = (.ok r, tr) := by
  rcases p with ⟨res, t⟩
  cases res <;> simp [wrapErr]

theorem wrapErr_error_iff {f : Exc → ErrorData} {p : TryResult}
    {d : ErrorData} {tr : List Call} :
    wrapErr f p = (.error d, tr) ↔
      ∃ e, p = (.error e, tr) ∧ d = f e := by
  rcases p with ⟨res, t⟩
  cases res with
  | ok v => simp [wrapErr]
  | error e =>
    simp only [wrapErr, Prod.mk.injEq, Except.error.injEq]
    constructor
    · rintro ⟨rfl, rfl⟩
      exact ⟨e, ⟨rfl, rfl⟩, rfl⟩
    · rintro ⟨e2, ⟨rfl, rfl⟩, rfl⟩
      exact ⟨rfl, rfl⟩

/-! ## Heads of serialised JSON values -/

/-- The characters a serialised JSON value can start with. -/
def isJsonStartChar (c : Char) : Bool :=
  decide (c ∈ ['n', 't', 'f', '"', '[', '-', '0', '1', '2', '3', '4', '5',
    '6', '7', '8', '9', Char.ofNat 123])

/-- Characters written by the digit serialiser. -/
def isDigitChar (c : Char) : Bool :=
  decide (c ∈ ['0', '1', '2', '3', '4', '5', '6', '7', '8', '9'])

theorem natCharsAux_head (fuel : Nat) :
    ∀ n acc, n < fuel →
      ∃ c r, natCharsAux fuel n acc = c :: r ∧ isDigitChar c = true := by
  induction fuel with
  | zero => intro n acc h; cases h
  | succ fuel ih =>
    intro n acc h
    rw [natCharsAux]
    by_cases h10 : n < 10
    · refine ⟨Char.ofNat (48 + n % 10), acc, by simp [h10], ?_⟩
      have hm : n % 10 < 10 := Nat.mod_lt _ (by omega)
      interval_cases hmod : n % 10 <;> simp_all <;> decide
    · have hrec : n / 10 < fuel := by omega
      obtain ⟨c, r, hcr, hd⟩ :=
        ih (n / 10) (Char.ofNat (48 + n % 10) :: acc) hrec
      exact ⟨c, r, by simp [h10, hcr], hd⟩

theorem natChars_head (n : Nat) :
    ∃ c r, natChars n = c :: r ∧ isDigitChar c = true :=
  natCharsAux_head (n + 1) n [] (by omega)

theorem isJsonStartChar_of_digit {c : Char} (h : isDigitChar c = true) :
    isJsonStartChar c = true := by
  simp only [isDigitChar, List.mem_cons, List.not_mem_nil, or_false,
    decide_eq_true_eq] at h
  rcases h with h | h | h | h | h | h | h | h | h | h <;> subst h <;> decide

theorem intChars_head (n : Int) :
    ∃ c r, intChars n = c :: r ∧ isJsonStartChar c = true := by
  cases n with
  | ofNat m =>
    obtain ⟨c, r, h1, h2⟩ := natChars_head m
    exact ⟨c, r, h1, isJsonStartChar_of_digit h2⟩
  | negSucc m => exact ⟨'-', natChars (m + 1), rfl, by decide⟩

/-- Every serialised JSON value starts with a character from the JSON value
grammar; no plain-prose message does. -/
theorem dumps_head (j : Json) :
    ∃ c r, Json.dumps j = c :: r ∧ isJsonStartChar c = true := by
  cases j with
  | null => exact ⟨'n', chars "ull", rfl, by decide⟩
  | bool b => cases b with
    | true => exact ⟨'t', chars "rue", by rfl, by decide⟩
    | false => exact ⟨'f', chars "alse", by rfl, by decide⟩
  | num n => exact intChars_head n
  | str s => exact ⟨'"', escStr s ++ ['"'], rfl, by decide⟩
  | arr elems => exact ⟨'[', Json.dumpsArr elems ++ [']'], rfl, by decide⟩
  | obj fields =>
    exact ⟨Char.ofNat 123, Json.dumpsObj fields ++ [Char.ofNat 125], rfl,
      by decide⟩

/-! ## Every handler produces one of the two codes with a non-empty
message -/

theorem goodED_createHandler (n : Str) (e : Exc) :
    goodED (createHandler n e) := by
  unfold createHandler
  try dsimp only
  repeat' split
  all_goals
    refine ⟨by first | exact Or.inl rfl | exact Or.inr rfl, ?_⟩
  all_goals
    first
      | exact append_ne_nil_left (by decide)
      | exact append_ne_nil_left (append_ne_nil_left (by decide))
      | exact append_ne_nil_left
          (append_ne_nil_left (append_ne_nil_left (by decide)))

theorem goodED_listHandler (e : Exc) : goodED (listHandler e) :=
  ⟨Or.inr rfl, append_ne_nil_left (by decide)⟩

theorem goodED_getHandler (n : Str) (e : Exc) : goodED (getHandler n e) := by
  unfold getHandler
  try dsimp only
  repeat' split
  all_goals
    refine ⟨by first | exact Or.inl rfl | exact Or.inr rfl, ?_⟩
  all_goals
    first
      | exact append_ne_nil_left (by decide)
      | exact append_ne_nil_left (append_ne_nil_left (by decide))
      | exact append_ne_nil_left
          (append_ne_nil_left (append_ne_nil_left (by decide)))

theorem goodED_renameHandler (o nn : Str) (e : Exc) :
    goodED (renameHandler o nn e) := by
  unfold renameHandler
  try dsimp only
  repeat' split
  all_goals
    refine ⟨by first | exact Or.inl rfl | exact Or.inr rfl, ?_⟩
  all_goals
    first
      | exact append_ne_nil_left (by decide)
      | exact append_ne_nil_left (append_ne_nil_left (by decide))
      | exact append_ne_nil_left
          (append_ne_nil_left (append_ne_nil_left (by decide)))

theorem goodED_deleteHandler (n : Str) (e : Exc) :
    goodED (deleteHandler n e) := by
  unfold deleteHandler
  try dsimp only
  repeat' split
  all_goals
    refine ⟨by first | exact Or.inl rfl | exact Or.inr rfl, ?_⟩
  all_goals
    first
      | exact append_ne_nil_left (by decide)
      | exact append_ne_nil_left (append_ne_nil_left (by decide))
      | exact append_ne_nil_left
          (append_ne_nil_left (append_ne_nil_left (by decide)))

theorem goodED_peekHandler (n : Str) (e : Exc) :
    goodED (peekHandler n e) := by
  unfold peekHandler
  try dsimp only
  repeat' split
  all_goals
    refine ⟨by first | exact Or.inl rfl | exact Or.inr rfl, ?_⟩
  all_goals
    first
      | exact append_ne_nil_left (by decide)
      | exact append_ne_nil_left (append_ne_nil_left (by decide))
      | exact append_ne_nil_left
          (append_ne_nil_left (append_ne_nil_left (by decide)))

/-- The handler of the metadata variant gives a good envelope for every
exception that is not a re-raised McpError. -/
theorem goodED_cwmHandler_of_not_mcp (n : Str) (e : Exc)
    (h : isMcpError e = false) :
    goodED (createWithMetadataHandler n e) := by
  unfold createWithMetadataHandler
  cases e <;> simp_all [isMcpError] <;> (try dsimp only) <;>
    repeat' split
  all_goals
    refine ⟨by first | exact Or.inl rfl | exact Or.inr rfl, ?_⟩
  all_goals
    first
      | exact append_ne_nil_left (by decide)
      | exact append_ne_nil_left (append_ne_nil_left (by decide))
      | exact append_ne_nil_left
          (append_ne_nil_left (append_ne_nil_left (by decide)))

/-- The handler of the metadata variant re-raises an McpError unchanged. -/
theorem cwmHandler_mcp (n : Str) (c : Int) (m : Str) :
    createWithMetadataHandler n (.mcpError c m) = ⟨c, m⟩ := by
  unfold createWithMetadataHandler
  rfl

/-! ## Success-path shapes of the try bodies -/

theorem createTryBody_ok_shape (env : Env) (n : Str) (r : List TextContent)
    (tr : List Call) (h : createTryBody env n = (.ok r, tr)) :
    (∃ j, r = [⟨chars "text", Json.dumps j⟩]) ∧
      tr = [.createCollection n (flattenSettings env.settings), .count] := by
  unfold createTryBody at h
  cases hv : env.validate n with
  | some m => simp [hv] at h
  | none =>
  simp only [hv] at h
  cases hc : env.chromaClient with
  | error e => simp [hc] at h
  | ok u =>
  simp only [hc] at h
  cases he : env.embeddingFn with
  | error e => simp [he] at h
  | ok u2 =>
  simp only [he] at h
  cases hcr : env.createResult n (flattenSettings env.settings) with
  | error e => simp [hcr] at h
  | ok coll =>
  simp only [hcr] at h
  cases hcnt : coll.countResult with
  | error e => simp [hcnt] at h
  | ok cnt =>
  simp only [hcnt, Prod.mk.injEq, Except.ok.injEq] at h
  exact ⟨⟨_, h.1.symm⟩, h.2.symm⟩

theorem listTryBody_ok_shape (env : Env) (limit offset : Option Nat)
    (nc : Option Str) (r : List TextContent) (tr : List Call)
    (h : listTryBody env limit offset nc = (.ok r, tr)) :
    (∃ j, r = [⟨chars "text", Json.dumps j⟩]) ∧ tr = [.listCollections] := by
  unfold listTryBody at h
  cases hc : env.chromaClient with
  | error e => simp [hc] at h
  | ok u =>
  simp only [hc] at h
  cases hl : env.listResult with
  | error e => simp [hl] at h
  | ok names =>
  simp only [hl, Prod.mk.injEq, Except.ok.injEq] at h
  exact ⟨⟨_, h.1.symm⟩, h.2.symm⟩

theorem getTryBody_ok_shape (env : Env) (n : Str) (r : List TextContent)
    (tr : List Call) (h : getTryBody env n = (.ok r, tr)) :
    (∃ j, r = [⟨chars "text", Json.dumps j⟩]) ∧
      tr = [.getCollection n, .count, .peek 5] := by
  unfold getTryBody at h
  cases hv : env.validate n with
  | some m => simp [hv] at h
  | none =>
  simp only [hv] at h
  cases hc : env.chromaClient with
  | error e => simp [hc] at h
  | ok u =>
  simp only [hc] at h
  cases he : env.embeddingFn with
  | error e => simp [he] at h
  | ok u2 =>
  simp only [he] at h
  cases hg : env.getResult n with
  | error e => simp [hg] at h
  | ok coll =>
  simp only [hg] at h
  cases hcnt : coll.countResult with
  | error e => simp [hcnt] at h
  | ok cnt =>
  simp only [hcnt, Prod.mk.injEq, Except.ok.injEq] at h
  exact ⟨⟨_, h.1.symm⟩, h.2.symm⟩

theorem renameTryBody_ok_shape (env : Env) (o nn : Str)
    (r : List TextContent) (tr : List Call)
    (h : renameTryBody env o nn = (.ok r, tr)) :
    r = [⟨chars "text",
      chars "Collection \x27" ++ o ++ chars "\x27 successfully renamed to \x27"
        ++ nn ++ chars "\x27."⟩] ∧
      tr = [.getCollection o, .modify nn] := by
  unfold renameTryBody at h
  cases hv : env.validate o with
  | some m => simp [hv] at h
  | none =>
  simp only [hv] at h
  cases hv2 : env.validate nn with
  | some m => simp [hv2] at h
  | none =>
  simp only [hv2] at h
  cases hc : env.chromaClient with
  | error e => simp [hc] at h
  | ok u =>
  simp only [hc] at h
  cases hg : env.getResult o with
  | error e => simp [hg] at h
  | ok coll =>
  simp only [hg] at h
  cases hm : coll.modifyResult nn with
  | error e => simp [hm] at h
  | ok u2 =>
  simp only [hm, Prod.mk.injEq, Except.ok.injEq] at h
  exact ⟨h.1.symm, h.2.symm⟩

theorem deleteTryBody_ok_shape (env : Env) (n : Str) (r : List TextContent)
    (tr : List Call) (h : deleteTryBody env n = (.ok r, tr)) :
    r = [⟨chars "text",
      chars "Collection \x27" ++ n ++ chars "\x27 deleted successfully."⟩] ∧
      tr = [.deleteCollection n] := by
  unfold deleteTryBody at h
  cases hv : env.validate n with
  | some m => simp [hv] at h
  | none =>
  simp only [hv] at h
  cases hc : env.chromaClient with
  | error e => simp [hc] at h
  | ok u =>
  simp only [hc] at h
  cases hd : env.deleteResult n with
  | error e => simp [hd] at h
  | ok u2 =>
  simp only [hd, Prod.mk.injEq, Except.ok.injEq] at h
  exact ⟨h.1.symm, h.2.symm⟩

theorem peekTryBody_ok_shape (env : Env) (n : Str) (limit : Option Nat)
    (r : List TextContent) (tr : List Call)
    (h : peekTryBody env n limit = (.ok r, tr)) :
    (∃ j, r = [⟨chars "text", Json.dumps j⟩]) ∧
      tr = [.getCollection n, .peek (peekEffLimit limit)] := by
  unfold peekTryBody at h
  cases hv : env.validate n with
  | some m => simp [hv] at h
  | none =>
  simp only [hv] at h
  cases hc : env.chromaClient with
  | error e => simp [hc] at h
  | ok u =>
  simp only [hc] at h
  cases hg : env.getResult n with
  | error e => simp [hg] at h
  | ok coll =>
  simp only [hg] at h
  cases hp : coll.peekResult (peekEffLimit limit) with
  | error e => simp [hp] at h
  | ok pv =>
  simp only [hp, Prod.mk.injEq, Except.ok.injEq] at h
  exact ⟨⟨_, h.1.symm⟩, h.2.symm⟩

theorem cwmTryBody_ok_shape (env : Env) (n m : Str) (r : List TextContent)
    (tr : List Call) (h : createWithMetadataTryBody env n m = (.ok r, tr)) :
    (∃ j, r = [⟨chars "text", Json.dumps j⟩]) ∧
      ∃ d, env.loads m = .ok (.obj d) ∧
        tr = [.createCollection n d, .count] := by
  unfold createWithMetadataTryBody at h
  cases hl : env.loads m with
  | error msg => simp [hl] at h
  | ok j =>
  simp only [hl] at h
  cases j with
  | obj d =>
    cases hv : env.validate n with
    | some msg => simp [hv] at h
    | none =>
    simp only [hv] at h
    cases he : env.embeddingFn with
    | error e => simp [he] at h
    | ok u =>
    simp only [he] at h
    cases hc : env.chromaClient with
    | error e => simp [hc] at h
    | ok u2 =>
    simp only [hc] at h
    cases hcr : env.createResult n d with
    | error e => simp [hcr] at h
    | ok coll =>
    simp only [hcr] at h
    cases hcnt : coll.countResult with
    | error e => simp [hcnt] at h
    | ok cnt =>
    simp only [hcnt, Prod.mk.injEq, Except.ok.injEq] at h
    exact ⟨⟨_, h.1.symm⟩, d, rfl, h.2.symm⟩
  | null => simp at h
  | bool b => simp at h
  | num k => simp at h
  | str s => simp at h
  | arr a => simp at h

/-! ## Error-path lemmas -/

/-- An external outcome that is not a raised McpError. -/
def notMcpOutcome {α : Type} (r : Except Exc α) : Prop :=
  ∀ c m, r ≠ .error (.mcpError c m)

/-- No call the create-with-metadata tool makes into the configuration layer
or the external client raises an McpError.  Under this hypothesis the
re-raise clause of that tool only ever re-raises the McpErrors built by its
own JSON parsing. -/
def NoClientMcp (env : Env) : Prop :=
  notMcpOutcome env.chromaClient ∧ notMcpOutcome env.embeddingFn ∧
    (∀ n md, notMcpOutcome (env.createResult n md)) ∧
    (∀ n md coll, env.createResult n md = .ok coll →
      notMcpOutcome coll.countResult)

theorem notMcp_of_outcome {α : Type} {r : Except Exc α} {e : Exc}
    (hr : r = .error e) (hn : notMcpOutcome r) : isMcpError e = false := by
  cases e with
  | mcpError c m => exact absurd hr (hn c m)
  | validationError m => rfl
  | valueError m => rfl
  | invalidDimension m => rfl
  | otherExc m => rfl

/-- Exceptions escaping the metadata-variant try body under a client that
raises no McpError are handled into a good envelope. -/
theorem cwmTryBody_error_good (env : Env) (n m : Str) (e : Exc)
    (tr : List Call) (h : createWithMetadataTryBody env n m = (.error e, tr))
    (hn : NoClientMcp env) : goodED (createWithMetadataHandler n e) := by
  obtain ⟨h1, h2, h3, h4⟩ := hn
  unfold createWithMetadataTryBody at h
  cases hl : env.loads m with
  | error msg =>
    simp only [hl, Prod.mk.injEq, Except.error.injEq] at h
    obtain ⟨rfl, -⟩ := h
    rw [cwmHandler_mcp]
    exact ⟨Or.inl rfl, append_ne_nil_left (by decide)⟩
  | ok j =>
  simp only [hl] at h
  cases j with
  | obj d =>
    cases hv : env.validate n with
    | some msg =>
      simp only [hv, Prod.mk.injEq, Except.error.injEq] at h
      obtain ⟨rfl, -⟩ := h
      exact goodED_cwmHandler_of_not_mcp n _ rfl
    | none =>
    simp only [hv] at h
    cases he : env.embeddingFn with
    | error e0 =>
      simp only [he, Prod.mk.injEq, Except.error.injEq] at h
      obtain ⟨rfl, -⟩ := h
      exact goodED_cwmHandler_of_not_mcp n _ (notMcp_of_outcome he h2)
    | ok u =>
    simp only [he] at h
    cases hc : env.chromaClient with
    | error e0 =>
      simp only [hc, Prod.mk.injEq, Except.error.injEq] at h
      obtain ⟨rfl, -⟩ := h
      exact goodED_cwmHandler_of_not_mcp n _ (notMcp_of_outcome hc h1)
    | ok u2 =>
    simp only [hc] at h
    cases hcr : env.createResult n d with
    | error e0 =>
      simp only [hcr, Prod.mk.injEq, Except.error.injEq] at h
      obtain ⟨rfl, -⟩ := h
      exact goodED_cwmHandler_of_not_mcp n _ (notMcp_of_outcome hcr (h3 n d))
    | ok coll =>
    simp only [hcr] at h
    cases hcnt : coll.countResult with
    | error e0 =>
      simp only [hcnt, Prod.mk.injEq, Except.error.injEq] at h
      obtain ⟨rfl, -⟩ := h
      exact goodED_cwmHandler_of_not_mcp n _
        (notMcp_of_outcome hcnt (h4 n d coll hcr))
    | ok cnt => simp [hcnt] at h
  | null =>
    simp only [Prod.mk.injEq, Except.error.injEq] at h
    obtain ⟨rfl, -⟩ := h
    rw [cwmHandler_mcp]
    exact ⟨Or.inl rfl, by decide⟩
  | bool b =>
    simp only [Prod.mk.injEq, Except.error.injEq] at h
    obtain ⟨rfl, -⟩ := h
    rw [cwmHandler_mcp]
    exact ⟨Or.inl rfl, by decide⟩
  | num k =>
    simp only [Prod.mk.injEq, Except.error.injEq] at h
    obtain ⟨rfl, -⟩ := h
    rw [cwmHandler_mcp]
    exact ⟨Or.inl rfl, by decide⟩
  | str s =>
    simp only [Prod.mk.injEq, Except.error.injEq] at h
    obtain ⟨rfl, -⟩ := h
    rw [cwmHandler_mcp]
    exact ⟨Or.inl rfl, by decide⟩
  | arr a =>
    simp only [Prod.mk.injEq, Except.error.injEq] at h
    obtain ⟨rfl, -⟩ := h
    rw [cwmHandler_mcp]
    exact ⟨Or.inl rfl, by decide⟩

/-! ## Validation failures happen before any client call -/

theorem createTryBody_validate (env : Env) (n m : Str)
    (hv : env.validate n = some m) :
    createTryBody env n = (.error (.validationError m), []) := by
  unfold createTryBody
  simp [hv]

theorem getTryBody_validate (env : Env) (n m : Str)
    (hv : env.validate n = some m) :
    getTryBody env n = (.error (.validationError m), []) := by
  unfold getTryBody
  simp [hv]

theorem deleteTryBody_validate (env : Env) (n m : Str)
    (hv : env.validate n = some m) :
    deleteTryBody env n = (.error (.validationError m), []) := by
  unfold deleteTryBody
  simp [hv]

theorem peekTryBody_validate (env : Env) (n m : Str) (limit : Option Nat)
    (hv : env.validate n = some m) :
    peekTryBody env n limit = (.error (.validationError m), []) := by
  unfold peekTryBody
  simp [hv]

theorem renameTryBody_validate_first (env : Env) (o nn m : Str)
    (hv : env.validate o = some m) :
    renameTryBody env o nn = (.error (.validationError m), []) := by
  unfold renameTryBody
  simp [hv]

theorem renameTryBody_validate_second (env : Env) (o nn m : Str)
    (hv : env.validate o = none) (hv2 : env.validate nn = some m) :
    renameTryBody env o nn = (.error (.validationError m), []) := by
  unfold renameTryBody
  simp [hv, hv2]

/-! ## Handler classification lemmas -/

theorem createHandler_validation (n m : Str) :
    createHandler n (.validationError m) =
      ⟨INVALID_PARAMS, chars "Validation Error: " ++ m⟩ := rfl

theorem renameHandler_validation (o nn m : Str) :
    renameHandler o nn (.validationError m) =
      ⟨INVALID_PARAMS, chars "Validation Error: " ++ m⟩ := rfl

theorem cwmHandler_validation (n m : Str) :
    createWithMetadataHandler n (.validationError m) =
      ⟨INVALID_PARAMS, chars "Validation Error: " ++ m⟩ := rfl

theorem getHandler_code_of_valueError (n : Str) (e : Exc)
    (h : isValueError e = true) : (getHandler n e).code = INVALID_PARAMS := by
  unfold getHandler
  simp [h]
  try split <;> rfl

theorem deleteHandler_code_of_valueError (n : Str) (e : Exc)
    (h : isValueError e = true) :
    (deleteHandler n e).code = INVALID_PARAMS := by
  unfold deleteHandler
  simp [h]
  try split <;> rfl

theorem peekHandler_code_of_valueError (n : Str) (e : Exc)
    (h : isValueError e = true) : (peekHandler n e).code = INVALID_PARAMS := by
  unfold peekHandler
  simp [h]
  try split <;> rfl

theorem getHandler_notFound (n : Str) (e : Exc) (h : isValueError e = true)
    (hp : containsSub (lowerStr (excStr e))
        (chars "collection " ++ n ++ chars " does not exist.") = true ∨
      containsSub (lowerStr (excStr e))
        (chars "collection " ++ n ++ chars " not found") = true) :
    getHandler n e = ⟨INVALID_PARAMS,
      chars "Tool Error: Collection \x27" ++ n ++ chars "\x27 not found."⟩ := by
  have hor : (containsSub (lowerStr (excStr e))
        (chars "collection " ++ n ++ chars " does not exist.")
      || containsSub (lowerStr (excStr e))
        (chars "collection " ++ n ++ chars " not found")) = true := by
    rcases hp with hp | hp <;> simp only [hp, Bool.true_or, Bool.or_true]
  unfold getHandler
  split
  next =>
    dsimp only
    split
    next => rfl
    next hnf => exact absurd hor hnf
  next hne => exact absurd h hne

theorem peekHandler_notFound (n : Str) (e : Exc) (h : isValueError e = true)
    (hp : containsSub (lowerStr (excStr e))
        (chars "collection " ++ n ++ chars " does not exist.") = true ∨
      containsSub (lowerStr (excStr e))
        (chars "collection " ++ n ++ chars " not found") = true) :
    peekHandler n e = ⟨INVALID_PARAMS,
      chars "Tool Error: Collection \x27" ++ n ++ chars "\x27 not found."⟩ := by
  have hor : (containsSub (lowerStr (excStr e))
        (chars "collection " ++ n ++ chars " does not exist.")
      || containsSub (lowerStr (excStr e))
        (chars "collection " ++ n ++ chars " not found")) = true := by
    rcases hp with hp | hp <;> simp only [hp, Bool.true_or, Bool.or_true]
  unfold peekHandler
  split
  next =>
    dsimp only
    split
    next => rfl
    next hnf => exact absurd hor hnf
  next hne => exact absurd h hne

theorem deleteHandler_notFound (n : Str) (e : Exc) (h : isValueError e = true)
    (hp : containsSub (lowerStr (excStr e))
        (chars "collection " ++ n ++ chars " does not exist.") = true ∨
      containsSub (lowerStr (excStr e))
        (chars "collection named " ++ n ++ chars " does not exist") = true) :
    deleteHandler n e = ⟨INVALID_PARAMS,
      chars "Tool Error: Collection \x27" ++ n ++ chars "\x27 not found."⟩ := by
  have hor : (containsSub (lowerStr (excStr e))
        (chars "collection " ++ n ++ chars " does not exist.")
      || containsSub (lowerStr (excStr e))
        (chars "collection named " ++ n ++ chars " does not exist")) = true := by
    rcases hp with hp | hp <;> simp only [hp, Bool.true_or, Bool.or_true]
  unfold deleteHandler
  split
  next =>
    dsimp only
    split
    next => rfl
    next hnf => exact absurd hor hnf
  next hne => exact absurd h hne

theorem createHandler_alreadyExists (n : Str) (e : Exc)
    (hve : isValueError e = true) (hnv : isValidationError e = false)
    (hp : containsSub (excStr e)
      (chars "Collection " ++ n ++ chars " already exists.") = true) :
    createHandler n e = ⟨INVALID_PARAMS,
      chars "Tool Error: Collection \x27" ++ n
        ++ chars "\x27 already exists."⟩ := by
  cases e with
  | validationError m => exact Bool.noConfusion hnv
  | invalidDimension m => exact Bool.noConfusion hve
  | mcpError c m => exact Bool.noConfusion hve
  | otherExc m => exact Bool.noConfusion hve
  | valueError m =>
    unfold createHandler
    rw [if_neg (fun hx => Bool.noConfusion hx),
      if_pos (show isValueError (Exc.valueError m) = true from rfl),
      if_pos hp]

theorem cwmHandler_alreadyExists (n : Str) (e : Exc)
    (hnv : isValidationError e = false) (hnm : isMcpError e = false)
    (hp : containsSub (excStr e)
      (chars "Collection " ++ n ++ chars " already exists.") = true) :
    createWithMetadataHandler n e = ⟨INVALID_PARAMS,
      chars "Tool Error: Collection \x27" ++ n
        ++ chars "\x27 already exists."⟩ := by
  cases e with
  | validationError m => exact Bool.noConfusion hnv
  | mcpError c m => exact Bool.noConfusion hnm
  | valueError m =>
    unfold createWithMetadataHandler
    rw [if_neg (fun hx => Bool.noConfusion hx)]
    dsimp only
    rw [if_pos hp]
  | invalidDimension m =>
    unfold createWithMetadataHandler
    rw [if_neg (fun hx => Bool.noConfusion hx)]
    dsimp only
    rw [if_pos hp]
  | otherExc m =>
    unfold createWithMetadataHandler
    rw [if_neg (fun hx => Bool.noConfusion hx)]
    dsimp only
    rw [if_pos hp]

/-! ## Concrete environments for witnesses and counterexamples -/

/-- A collection object whose every method succeeds. -/
def collOkC : CollectionObj :=
  { name := chars "c", id := chars "1", metadata := none,
    countResult := .ok 0, peekResult := fun _ => .ok none,
    modifyResult := fun _ => .ok () }

/-- An environment in which every external call succeeds. -/
def envOkC : Env :=
  { validate := fun _ => none, chromaClient := .ok (), embeddingFn := .ok (),
    settings := [], loads := fun _ => .ok (.obj []),
    createResult := fun _ _ => .ok collOkC, listResult := .ok [],
    getResult := fun _ => .ok collOkC, deleteResult := fun _ => .ok () }

/-- A serialised JSON value never starts with the letter C, so no
plain-prose confirmation message is serialised JSON. -/
theorem not_dumps_eq_cons_C (x : Str) : ¬∃ j, Json.dumps j = 'C' :: x := by
  rintro ⟨j, hj⟩
  obtain ⟨c, r, hcr, hs⟩ := dumps_head j
  rw [hcr] at hj
  obtain ⟨rfl, -⟩ := List.cons.inj hj
  exact absurd hs (by decide)

/-! ## Claim C2 -/

/-- Claim C2 as stated is false: the success result of rename collection is a
single TextContent whose text is the plain confirmation sentence, which is
not the serialisation of any JSON value (it starts with the letter C, no JSON
value does). -/
theorem C2_counterexample :
    (_rename_collection_impl envOkC ⟨chars "a", chars "b"⟩).1 =
      .ok [⟨chars "text",
        chars "Collection \x27a\x27 successfully renamed to \x27b\x27."⟩] ∧
    ¬∃ j : Json, Json.dumps j =
      chars "Collection \x27a\x27 successfully renamed to \x27b\x27." := by
  constructor
  · rfl
  · have hsplit :
        chars "Collection \x27a\x27 successfully renamed to \x27b\x27." =
          'C' :: chars "ollection \x27a\x27 successfully renamed to \x27b\x27." :=
      rfl
    rw [hsplit]
    exact not_dumps_eq_cons_C _

/-- Claim C2 (amended): every successful tool call returns a list holding
exactly one TextContent; for create, create with metadata, list, get and peek
its text field is a JSON-serialised value, while rename and delete return a
plain-text confirmation sentence that is not JSON. -/
theorem C2_amended :
    (∀ env inp r tr, _create_collection_impl env inp = (.ok r, tr) →
      ∃ j, r = [⟨chars "text", Json.dumps j⟩]) ∧
    (∀ env inp r tr, _create_collection_with_metadata_impl env inp =
        (.ok r, tr) → ∃ j, r = [⟨chars "text", Json.dumps j⟩]) ∧
    (∀ env inp r tr, _list_collections_impl env inp = (.ok r, tr) →
      ∃ j, r = [⟨chars "text", Json.dumps j⟩]) ∧
    (∀ env inp r tr, _get_collection_impl env inp = (.ok r, tr) →
      ∃ j, r = [⟨chars "text", Json.dumps j⟩]) ∧
    (∀ env inp r tr, _peek_collection_impl env inp = (.ok r, tr) →
      ∃ j, r = [⟨chars "text", Json.dumps j⟩]) ∧
    (∀ env inp r tr, _rename_collection_impl env inp = (.ok r, tr) →
      r = [⟨chars "text",
        chars "Collection \x27" ++ inp.collection_name
          ++ chars "\x27 successfully renamed to \x27" ++ inp.new_name
          ++ chars "\x27."⟩] ∧
      ¬∃ j, Json.dumps j =
        chars "Collection \x27" ++ inp.collection_name
          ++ chars "\x27 successfully renamed to \x27" ++ inp.new_name
          ++ chars "\x27.") ∧
    (∀ env inp r tr, _delete_collection_impl env inp = (.ok r, tr) →
      r = [⟨chars "text",
        chars "Collection \x27" ++ inp.collection_name
          ++ chars "\x27 deleted successfully."⟩] ∧
      ¬∃ j, Json.dumps j =
        chars "Collection \x27" ++ inp.collection_name
          ++ chars "\x27 deleted successfully.") := by
  refine ⟨?_, ?_, ?_, ?_, ?_, ?_, ?_⟩
  · intro env inp r tr h
    exact (createTryBody_ok_shape env _ r tr
      (wrapErr_ok_iff.mp h)).1
  · intro env inp r tr h
    exact (cwmTryBody_ok_shape env _ _ r tr (wrapErr_ok_iff.mp h)).1
  · intro env inp r tr h
    exact (listTryBody_ok_shape env _ _ _ r tr (wrapErr_ok_iff.mp h)).1
  · intro env inp r tr h
    exact (getTryBody_ok_shape env _ r tr (wrapErr_ok_iff.mp h)).1
  · intro env inp r tr h
    exact (peekTryBody_ok_shape env _ _ r tr (wrapErr_ok_iff.mp h)).1
  · intro env inp r tr h
    refine ⟨(renameTryBody_ok_shape env _ _ r tr (wrapErr_ok_iff.mp h)).1, ?_⟩
    have hsplit :
        chars "Collection \x27" ++ inp.collection_name
            ++ chars "\x27 successfully renamed to \x27" ++ inp.new_name
            ++ chars "\x27." =
          'C' :: (chars "ollection \x27" ++ inp.collection_name
            ++ chars "\x27 successfully renamed to \x27" ++ inp.new_name
            ++ chars "\x27.") := rfl
    rw [hsplit]
    exact not_dumps_eq_cons_C _
  · intro env inp r tr h
    refine ⟨(deleteTryBody_ok_shape env _ r tr (wrapErr_ok_iff.mp h)).1, ?_⟩
    have hsplit :
        chars "Collection \x27" ++ inp.collection_name
            ++ chars "\x27 deleted successfully." =
          'C' :: (chars "ollection \x27" ++ inp.collection_name
            ++ chars "\x27 deleted successfully.") := rfl
    rw [hsplit]
    exact not_dumps_eq_cons_C _

/-- Witness for C2: the amended claim applied to a concrete all-success
environment for each of the seven tools. -/
theorem C2_amended_witness :
    (∃ j, resContent (_create_collection_impl envOkC ⟨chars "c"⟩) =
      [⟨chars "text", Json.dumps j⟩]) ∧
    (∃ j, resContent (_create_collection_with_metadata_impl envOkC
      ⟨chars "c", chars "md"⟩) = [⟨chars "text", Json.dumps j⟩]) ∧
    (∃ j, resContent (_list_collections_impl envOkC ⟨none, none, none⟩) =
      [⟨chars "text", Json.dumps j⟩]) ∧
    (∃ j, resContent (_get_collection_impl envOkC ⟨chars "c"⟩) =
      [⟨chars "text", Json.dumps j⟩]) ∧
    (∃ j, resContent (_peek_collection_impl envOkC ⟨chars "c", none⟩) =
      [⟨chars "text", Json.dumps j⟩]) ∧
    resContent (_rename_collection_impl envOkC ⟨chars "a", chars "b"⟩) =
      [⟨chars "text",
        chars "Collection \x27a\x27 successfully renamed to \x27b\x27."⟩] ∧
    resContent (_delete_collection_impl envOkC ⟨chars "c"⟩) =
      [⟨chars "text", chars "Collection \x27c\x27 deleted successfully."⟩] := by
  refine ⟨?_, ?_, ?_, ?_, ?_, ?_, ?_⟩
  · exact C2_amended.1 envOkC ⟨chars "c"⟩ _ _ rfl
  · exact C2_amended.2.1 envOkC ⟨chars "c", chars "md"⟩ _ _ rfl
  · exact C2_amended.2.2.1 envOkC ⟨none, none, none⟩ _ _ rfl
  · exact C2_amended.2.2.2.1 envOkC ⟨chars "c"⟩ _ _ rfl
  · exact C2_amended.2.2.2.2.1 envOkC ⟨chars "c", none⟩ _ _ rfl
  · exact (C2_amended.2.2.2.2.2.1 envOkC ⟨chars "a", chars "b"⟩ _ _ rfl).1
  · exact (C2_amended.2.2.2.2.2.2 envOkC ⟨chars "c"⟩ _ _ rfl).1

/-! ## Claim C3 -/

/-- Claim C3 as stated is false: a successful get collection makes three
calls into the external library (get_collection, count, peek), not exactly
one. -/
theorem C3_counterexample :
    isOkT (_get_collection_impl envOkC ⟨chars "c"⟩) = true ∧
    (_get_collection_impl envOkC ⟨chars "c"⟩).2 =
      [.getCollection (chars "c"), .count, .peek 5] ∧
    [Call.getCollection (chars "c"), .count, .peek 5].length ≠ 1 := by
  refine ⟨rfl, rfl, by decide⟩

/-- Claim C3 (amended): on the success path, list and delete make exactly
one client call, create makes two (create_collection then count), create
with metadata makes two (create_collection then count), rename makes two
(get_collection then modify), peek makes two (get_collection then peek) and
get makes three (get_collection, count, peek). -/
theorem C3_amended :
    (∀ env inp r tr, _create_collection_impl env inp = (.ok r, tr) →
      tr = [.createCollection inp.collection_name
        (flattenSettings env.settings), .count]) ∧
    (∀ env inp r tr, _create_collection_with_metadata_impl env inp =
        (.ok r, tr) →
      ∃ d, env.loads inp.metadata = .ok (.obj d) ∧
        tr = [.createCollection inp.collection_name d, .count]) ∧
    (∀ env inp r tr, _list_collections_impl env inp = (.ok r, tr) →
      tr = [.listCollections]) ∧
    (∀ env inp r tr, _get_collection_impl env inp = (.ok r, tr) →
      tr = [.getCollection inp.collection_name, .count, .peek 5]) ∧
    (∀ env inp r tr, _rename_collection_impl env inp = (.ok r, tr) →
      tr = [.getCollection inp.collection_name, .modify inp.new_name]) ∧
    (∀ env inp r tr, _delete_collection_impl env inp = (.ok r, tr) →
      tr = [.deleteCollection inp.collection_name]) ∧
    (∀ env inp r tr, _peek_collection_impl env inp = (.ok r, tr) →
      tr = [.getCollection inp.collection_name,
        .peek (peekEffLimit inp.limit)]) := by
  refine ⟨?_, ?_, ?_, ?_, ?_, ?_, ?_⟩
  · intro env inp r tr h
    exact (createTryBody_ok_shape env _ r tr (wrapErr_ok_iff.mp h)).2
  · intro env inp r tr h
    exact (cwmTryBody_ok_shape env _ _ r tr (wrapErr_ok_iff.mp h)).2
  · intro env inp r tr h
    exact (listTryBody_ok_shape env _ _ _ r tr (wrapErr_ok_iff.mp h)).2
  · intro env inp r tr h
    exact (getTryBody_ok_shape env _ r tr (wrapErr_ok_iff.mp h)).2
  · intro env inp r tr h
    exact (renameTryBody_ok_shape env _ _ r tr (wrapErr_ok_iff.mp h)).2
  · intro env inp r tr h
    exact (deleteTryBody_ok_shape env _ r tr (wrapErr_ok_iff.mp h)).2
  · intro env inp r tr h
    exact (peekTryBody_ok_shape env _ _ r tr (wrapErr_ok_iff.mp h)).2

/-- Witness for C3: the amended call counts on a concrete all-success
environment. -/
theorem C3_amended_witness :
    (_create_collection_impl envOkC ⟨chars "c"⟩).2 =
      [.createCollection (chars "c") [], .count] ∧
    (∃ d, envOkC.loads (chars "md") = .ok (.obj d) ∧
      (_create_collection_with_metadata_impl envOkC
        ⟨chars "c", chars "md"⟩).2 = [.createCollection (chars "c") d,
          .count]) ∧
    (_list_collections_impl envOkC ⟨none, none, none⟩).2 =
      [.listCollections] ∧
    (_rename_collection_impl envOkC ⟨chars "a", chars "b"⟩).2 =
      [.getCollection (chars "a"), .modify (chars "b")] ∧
    (_delete_collection_impl envOkC ⟨chars "c"⟩).2 =
      [.deleteCollection (chars "c")] ∧
    (_peek_collection_impl envOkC ⟨chars "c", none⟩).2 =
      [.getCollection (chars "c"), .peek 10] := by
  refine ⟨?_, ?_, ?_, ?_, ?_, ?_⟩
  · exact C3_amended.1 envOkC ⟨chars "c"⟩ _ _ rfl
  · exact C3_amended.2.1 envOkC ⟨chars "c", chars "md"⟩ _ _ rfl
  · exact C3_amended.2.2.1 envOkC ⟨none, none, none⟩ _ _ rfl
  · exact C3_amended.2.2.2.2.1 envOkC ⟨chars "a", chars "b"⟩ _ _ rfl
  · exact C3_amended.2.2.2.2.2.1 envOkC ⟨chars "c"⟩ _ _ rfl
  · exact C3_amended.2.2.2.2.2.2 envOkC ⟨chars "c", none⟩ _ _ rfl

/-! ## Claim C1 -/

/-- An environment in which create_collection raises an McpError with an
arbitrary code and an empty message. -/
def envMcpRaise : Env :=
  { validate := fun _ => none, chromaClient := .ok (), embeddingFn := .ok (),
    settings := [], loads := fun _ => .ok (.obj []),
    createResult := fun _ _ => .error (.mcpError 0 []),
    listResult := .ok [], getResult := fun _ => .ok collOkC,
    deleteResult := fun _ => .ok () }

/-- Claim C1 as stated is false: create collection with metadata re-raises
any McpError from inside its try block unchanged, so a client that raises an
McpError with code 0 and an empty message makes the operation fail with that
very envelope, which carries neither INVALID_PARAMS nor INTERNAL_ERROR and
has an empty message. -/
theorem C1_counterexample :
    (_create_collection_with_metadata_impl envMcpRaise
      ⟨chars "c", chars "md"⟩).1 = .error ⟨0, []⟩ ∧
    (0 : Int) ≠ INVALID_PARAMS ∧ (0 : Int) ≠ INTERNAL_ERROR := by
  refine ⟨rfl, by decide, by decide⟩

/-- Claim C1 (amended): every failing tool call raises an McpError whose
ErrorData carries INVALID_PARAMS or INTERNAL_ERROR with a non-empty message,
except that create collection with metadata re-raises an McpError raised
inside its try block unchanged; when no call it makes raises an McpError
itself, its envelope also carries one of the two codes with a non-empty
message. -/
theorem C1_amended :
    (∀ env inp d tr, _create_collection_impl env inp = (.error d, tr) →
      goodED d) ∧
    (∀ env inp d tr, _list_collections_impl env inp = (.error d, tr) →
      goodED d) ∧
    (∀ env inp d tr, _get_collection_impl env inp = (.error d, tr) →
      goodED d) ∧
    (∀ env inp d tr, _rename_collection_impl env inp = (.error d, tr) →
      goodED d) ∧
    (∀ env inp d tr, _delete_collection_impl env inp = (.error d, tr) →
      goodED d) ∧
    (∀ env inp d tr, _peek_collection_impl env inp = (.error d, tr) →
      goodED d) ∧
    (∀ env inp d tr, NoClientMcp env →
      _create_collection_with_metadata_impl env inp = (.error d, tr) →
      goodED d) := by
  refine ⟨?_, ?_, ?_, ?_, ?_, ?_, ?_⟩
  · intro env inp d tr h
    obtain ⟨e, -, rfl⟩ := wrapErr_error_iff.mp h
    exact goodED_createHandler _ _
  · intro env inp d tr h
    obtain ⟨e, -, rfl⟩ := wrapErr_error_iff.mp h
    exact goodED_listHandler _
  · intro env inp d tr h
    obtain ⟨e, -, rfl⟩ := wrapErr_error_iff.mp h
    exact goodED_getHandler _ _
  · intro env inp d tr h
    obtain ⟨e, -, rfl⟩ := wrapErr_error_iff.mp h
    exact goodED_renameHandler _ _ _
  · intro env inp d tr h
    obtain ⟨e, -, rfl⟩ := wrapErr_error_iff.mp h
    exact goodED_deleteHandler _ _
  · intro env inp d tr h
    obtain ⟨e, -, rfl⟩ := wrapErr_error_iff.mp h
    exact goodED_peekHandler _ _
  · intro env inp d tr hn h
    obtain ⟨e, he, rfl⟩ := wrapErr_error_iff.mp h
    exact cwmTryBody_error_good env _ _ e tr he hn

/-- An environment in which every client call raises a plain exception with
message boom. -/
def envBoom : Env :=
  { validate := fun _ => none,
    chromaClient := .error (.otherExc (chars "boom")),
    embeddingFn := .error (.otherExc (chars "boom")), settings := [],
    loads := fun _ => .ok (.obj []),
    createResult := fun _ _ => .error (.otherExc (chars "boom")),
    listResult := .error (.otherExc (chars "boom")),
    getResult := fun _ => .error (.otherExc (chars "boom")),
    deleteResult := fun _ => .error (.otherExc (chars "boom")) }

theorem envBoom_noClientMcp : NoClientMcp envBoom := by
  refine ⟨?_, ?_, ?_, ?_⟩
  · intro c m h
    simp [envBoom] at h
  · intro c m h
    simp [envBoom] at h
  · intro n md c m h
    simp [envBoom] at h
  · intro n md coll h
    simp [envBoom] at h

/-- Witness for C1: the amended claim applied to a concrete environment
whose client calls fail with a plain exception. -/
theorem C1_amended_witness :
    goodED ⟨INTERNAL_ERROR,
      chars "Tool Error: An unexpected error occurred while creating collection \x27c\x27. Details: boom"⟩ ∧
    goodED ⟨INTERNAL_ERROR,
      chars "Tool Error: Error listing collections. Details: boom"⟩ ∧
    goodED ⟨INTERNAL_ERROR,
      chars "Tool Error: An unexpected error occurred while getting collection \x27c\x27. Details: boom"⟩ ∧
    goodED ⟨INTERNAL_ERROR,
      chars "Tool Error: An unexpected error occurred renaming collection \x27a\x27. Details: boom"⟩ ∧
    goodED ⟨INTERNAL_ERROR,
      chars "Tool Error: An unexpected error occurred deleting collection \x27c\x27. Details: boom"⟩ ∧
    goodED ⟨INTERNAL_ERROR,
      chars "Tool Error: An unexpected error occurred peeking collection \x27c\x27. Details: boom"⟩ ∧
    goodED ⟨INTERNAL_ERROR,
      chars "Tool Error: An unexpected error occurred while creating collection \x27c\x27. Details: boom"⟩ := by
  refine ⟨?_, ?_, ?_, ?_, ?_, ?_, ?_⟩
  · exact C1_amended.1 envBoom ⟨chars "c"⟩ _ _ rfl
  · exact C1_amended.2.1 envBoom ⟨none, none, none⟩ _ _ rfl
  · exact C1_amended.2.2.1 envBoom ⟨chars "c"⟩ _ _ rfl
  · exact C1_amended.2.2.2.1 envBoom ⟨chars "a", chars "b"⟩ _ _ rfl
  · exact C1_amended.2.2.2.2.1 envBoom ⟨chars "c"⟩ _ _ rfl
  · exact C1_amended.2.2.2.2.2.1 envBoom ⟨chars "c", none⟩ _ _ rfl
  · exact C1_amended.2.2.2.2.2.2 envBoom ⟨chars "c", chars "md"⟩ _ _
      envBoom_noClientMcp rfl

/-! ## Claim C4 -/

/-- An environment in which create_collection raises a generic (non
ValueError) exception whose message contains the already-exists pattern. -/
def envExistsOther : Env :=
  { validate := fun _ => none, chromaClient := .ok (), embeddingFn := .ok (),
    settings := [], loads := fun _ => .ok (.obj []),
    createResult := fun _ _ =>
      .error (.otherExc (chars "Collection c already exists.")),
    listResult := .ok [], getResult := fun _ => .ok collOkC,
    deleteResult := fun _ => .ok () }

/-- Claim C4 as stated is false for create collection: a generic exception
(not a ValueError) whose message contains the already-exists pattern is
handled by the catch-all clause and mapped to INTERNAL_ERROR with a
different message, not to the INVALID_PARAMS already-exists envelope. -/
theorem C4_counterexample :
    containsSub (excStr (.otherExc (chars "Collection c already exists.")))
      (chars "Collection " ++ chars "c" ++ chars " already exists.") =
      true ∧
    (_create_collection_impl envExistsOther ⟨chars "c"⟩).1 =
      .error ⟨INTERNAL_ERROR,
        chars "Tool Error: An unexpected error occurred while creating collection \x27c\x27. Details: Collection c already exists."⟩ ∧
    INTERNAL_ERROR ≠ INVALID_PARAMS := by
  refine ⟨by decide, rfl, by decide⟩

/-- Claim C4 (amended): for create collection, every ValueError that is not
a ValidationError and whose message contains the already-exists pattern is
mapped to McpError INVALID_PARAMS with the already-exists message; for
create collection with metadata the same holds for every exception that is
neither a ValidationError nor an McpError. -/
theorem C4_amended :
    (∀ env (inp : CreateCollectionInput) e tr,
      createTryBody env inp.collection_name = (.error e, tr) →
      isValueError e = true → isValidationError e = false →
      containsSub (excStr e) (chars "Collection " ++ inp.collection_name
        ++ chars " already exists.") = true →
      (_create_collection_impl env inp).1 = .error ⟨INVALID_PARAMS,
        chars "Tool Error: Collection \x27" ++ inp.collection_name
          ++ chars "\x27 already exists."⟩) ∧
    (∀ env (inp : CreateCollectionWithMetadataInput) e tr,
      createWithMetadataTryBody env inp.collection_name inp.metadata =
        (.error e, tr) →
      isValidationError e = false → isMcpError e = false →
      containsSub (excStr e) (chars "Collection " ++ inp.collection_name
        ++ chars " already exists.") = true →
      (_create_collection_with_metadata_impl env inp).1 =
        .error ⟨INVALID_PARAMS,
          chars "Tool Error: Collection \x27" ++ inp.collection_name
            ++ chars "\x27 already exists."⟩) := by
  constructor
  · intro env inp e tr h hve hnv hp
    unfold _create_collection_impl
    rw [h]
    simp only [wrapErr]
    rw [createHandler_alreadyExists _ _ hve hnv hp]
  · intro env inp e tr h hnv hnm hp
    unfold _create_collection_with_metadata_impl
    rw [h]
    simp only [wrapErr]
    rw [cwmHandler_alreadyExists _ _ hnv hnm hp]

/-- An environment in which create_collection raises a ValueError whose
message contains the already-exists pattern. -/
def envExistsValue : Env :=
  { validate := fun _ => none, chromaClient := .ok (), embeddingFn := .ok (),
    settings := [], loads := fun _ => .ok (.obj []),
    createResult := fun _ _ =>
      .error (.valueError (chars "Collection c already exists.")),
    listResult := .ok [], getResult := fun _ => .ok collOkC,
    deleteResult := fun _ => .ok () }

/-- Witness for C4: the amended mapping applied to a concrete ValueError
with the already-exists message, for both create tools. -/
theorem C4_amended_witness :
    (_create_collection_impl envExistsValue ⟨chars "c"⟩).1 =
      .error ⟨INVALID_PARAMS,
        chars "Tool Error: Collection \x27c\x27 already exists."⟩ ∧
    (_create_collection_with_metadata_impl envExistsValue
      ⟨chars "c", chars "md"⟩).1 =
      .error ⟨INVALID_PARAMS,
        chars "Tool Error: Collection \x27c\x27 already exists."⟩ := by
  constructor
  · exact C4_amended.1 envExistsValue ⟨chars "c"⟩
      (.valueError (chars "Collection c already exists.")) _ rfl rfl rfl
      (by decide)
  · exact C4_amended.2 envExistsValue ⟨chars "c", chars "md"⟩
      (.valueError (chars "Collection c already exists.")) _ rfl rfl rfl
      (by decide)

/-! ## Claim C5 -/

/-- A collection object whose peek raises a ValueError carrying the
does-not-exist pattern. -/
def collPeekValErr : CollectionObj :=
  { name := chars "c", id := chars "1", metadata := none,
    countResult := .ok 0,
    peekResult := fun _ =>
      .error (.valueError (chars "collection c does not exist.")),
    modifyResult := fun _ => .ok () }

/-- An environment in which get_collection succeeds but the returned
collection object raises the matching ValueError on peek. -/
def envPeekValErr : Env :=
  { validate := fun _ => none, chromaClient := .ok (), embeddingFn := .ok (),
    settings := [], loads := fun _ => .ok (.obj []),
    createResult := fun _ _ => .ok collOkC, listResult := .ok [],
    getResult := fun _ => .ok collPeekValErr,
    deleteResult := fun _ => .ok () }

/-- Claim C5 as stated is false: a ValueError raised by the client whose
lowercased message contains the does-not-exist pattern does not always make
get collection raise the not-found McpError, because a ValueError raised by
the peek call inside get collection is caught by the inner handler and the
operation returns normally. -/
theorem C5_counterexample :
    containsSub
      (lowerStr (excStr (.valueError
        (chars "collection c does not exist."))))
      (chars "collection " ++ chars "c" ++ chars " does not exist.") =
      true ∧
    isOkT (_get_collection_impl envPeekValErr ⟨chars "c"⟩) = true := by
  exact ⟨by decide, rfl⟩

/-- Claim C5 (amended): for get, delete and peek collection, every
ValueError that escapes the try block (get_collection or count for get;
get_collection or peek for peek; delete_collection for delete — a ValueError
from the peek inside get is tolerated by its inner handler) is mapped to
code INVALID_PARAMS, and when its lowercased message contains the
per-operation not-found patterns the message is exactly the not-found
sentence. -/
theorem C5_amended :
    (∀ env (inp : GetCollectionInput) e tr,
      getTryBody env inp.collection_name = (.error e, tr) →
      isValueError e = true →
      (_get_collection_impl env inp).1 =
          .error (getHandler inp.collection_name e) ∧
        (getHandler inp.collection_name e).code = INVALID_PARAMS ∧
        (containsSub (lowerStr (excStr e)) (chars "collection "
            ++ inp.collection_name ++ chars " does not exist.") = true ∨
          containsSub (lowerStr (excStr e)) (chars "collection "
            ++ inp.collection_name ++ chars " not found") = true →
          getHandler inp.collection_name e = ⟨INVALID_PARAMS,
            chars "Tool Error: Collection \x27" ++ inp.collection_name
              ++ chars "\x27 not found."⟩)) ∧
    (∀ env (inp : DeleteCollectionInput) e tr,
      deleteTryBody env inp.collection_name = (.error e, tr) →
      isValueError e = true →
      (_delete_collection_impl env inp).1 =
          .error (deleteHandler inp.collection_name e) ∧
        (deleteHandler inp.collection_name e).code = INVALID_PARAMS ∧
        (containsSub (lowerStr (excStr e)) (chars "collection "
            ++ inp.collection_name ++ chars " does not exist.") = true ∨
          containsSub (lowerStr (excStr e)) (chars "collection named "
            ++ inp.collection_name ++ chars " does not exist") = true →
          deleteHandler inp.collection_name e = ⟨INVALID_PARAMS,
            chars "Tool Error: Collection \x27" ++ inp.collection_name
              ++ chars "\x27 not found."⟩)) ∧
    (∀ env (inp : PeekCollectionInput) e tr,
      peekTryBody env inp.collection_name inp.limit = (.error e, tr) →
      isValueError e = true →
      (_peek_collection_impl env inp).1 =
          .error (peekHandler inp.collection_name e) ∧
        (peekHandler inp.collection_name e).code = INVALID_PARAMS ∧
        (containsSub (lowerStr (excStr e)) (chars "collection "
            ++ inp.collection_name ++ chars " does not exist.") = true ∨
          containsSub (lowerStr (excStr e)) (chars "collection "
            ++ inp.collection_name ++ chars " not found") = true →
          peekHandler inp.collection_name e = ⟨INVALID_PARAMS,
            chars "Tool Error: Collection \x27" ++ inp.collection_name
              ++ chars "\x27 not found."⟩)) := by
  refine ⟨?_, ?_, ?_⟩
  · intro env inp e tr h hve
    refine ⟨?_, getHandler_code_of_valueError _ _ hve,
      fun hp => getHandler_notFound _ _ hve hp⟩
    unfold _get_collection_impl
    rw [h]
    simp only [wrapErr]
  · intro env inp e tr h hve
    refine ⟨?_, deleteHandler_code_of_valueError _ _ hve,
      fun hp => deleteHandler_notFound _ _ hve hp⟩
    unfold _delete_collection_impl
    rw [h]
    simp only [wrapErr]
  · intro env inp e tr h hve
    refine ⟨?_, peekHandler_code_of_valueError _ _ hve,
      fun hp => peekHandler_notFound _ _ hve hp⟩
    unfold _peek_collection_impl
    rw [h]
    simp only [wrapErr]

/-- An environment in which get_collection and delete_collection raise the
ValueError ChromaDB produces for a missing collection. -/
def envNotFound : Env :=
  { validate := fun _ => none, chromaClient := .ok (), embeddingFn := .ok (),
    settings := [], loads := fun _ => .ok (.obj []),
    createResult := fun _ _ => .ok collOkC, listResult := .ok [],
    getResult := fun _ =>
      .error (.valueError (chars "Collection c does not exist.")),
    deleteResult := fun _ =>
      .error (.valueError (chars "Collection c does not exist.")) }

/-- Witness for C5: the amended mapping on a concrete missing-collection
ValueError for all three operations. -/
theorem C5_amended_witness :
    (_get_collection_impl envNotFound ⟨chars "c"⟩).1 =
      .error ⟨INVALID_PARAMS,
        chars "Tool Error: Collection \x27c\x27 not found."⟩ ∧
    (_delete_collection_impl envNotFound ⟨chars "c"⟩).1 =
      .error ⟨INVALID_PARAMS,
        chars "Tool Error: Collection \x27c\x27 not found."⟩ ∧
    (_peek_collection_impl envNotFound ⟨chars "c", none⟩).1 =
      .error ⟨INVALID_PARAMS,
        chars "Tool Error: Collection \x27c\x27 not found."⟩ := by
  refine ⟨?_, ?_, ?_⟩
  · have h := C5_amended.1 envNotFound ⟨chars "c"⟩
      (.valueError (chars "Collection c does not exist.")) _ rfl rfl
    rw [h.1, h.2.2 (Or.inl (by decide))]
    rfl
  · have h := C5_amended.2.1 envNotFound ⟨chars "c"⟩
      (.valueError (chars "Collection c does not exist.")) _ rfl rfl
    rw [h.1, h.2.2 (Or.inl (by decide))]
    rfl
  · have h := C5_amended.2.2 envNotFound ⟨chars "c", none⟩
      (.valueError (chars "Collection c does not exist.")) _ rfl rfl
    rw [h.1, h.2.2 (Or.inl (by decide))]
    rfl

/-! ## Claim C6 -/

/-- Claim C6: in every tool that takes a collection name, a name on which
validate_collection_name raises ValidationError makes the tool raise
McpError with code INVALID_PARAMS, and no call into the external client is
made first (the call trace is empty).  For get, delete and peek this relies
on the spec-modelled assumption that ValidationError is caught by their
ValueError clauses. -/
theorem C6_validate_first :
    (∀ env (inp : CreateCollectionInput) m,
      env.validate inp.collection_name = some m →
      resCode (_create_collection_impl env inp) = some INVALID_PARAMS ∧
        (_create_collection_impl env inp).2 = []) ∧
    (∀ env (inp : CreateCollectionWithMetadataInput) m,
      env.validate inp.collection_name = some m →
      resCode (_create_collection_with_metadata_impl env inp) =
          some INVALID_PARAMS ∧
        (_create_collection_with_metadata_impl env inp).2 = []) ∧
    (∀ env (inp : GetCollectionInput) m,
      env.validate inp.collection_name = some m →
      resCode (_get_collection_impl env inp) = some INVALID_PARAMS ∧
        (_get_collection_impl env inp).2 = []) ∧
    (∀ env (inp : RenameCollectionInput) m,
      (env.validate inp.collection_name = some m ∨
        (env.validate inp.collection_name = none ∧
          env.validate inp.new_name = some m)) →
      resCode (_rename_collection_impl env inp) = some INVALID_PARAMS ∧
        (_rename_collection_impl env inp).2 = []) ∧
    (∀ env (inp : DeleteCollectionInput) m,
      env.validate inp.collection_name = some m →
      resCode (_delete_collection_impl env inp) = some INVALID_PARAMS ∧
        (_delete_collection_impl env inp).2 = []) ∧
    (∀ env (inp : PeekCollectionInput) m,
      env.validate inp.collection_name = some m →
      resCode (_peek_collection_impl env inp) = some INVALID_PARAMS ∧
        (_peek_collection_impl env inp).2 = []) := by
  refine ⟨?_, ?_, ?_, ?_, ?_, ?_⟩
  · intro env inp m hv
    unfold _create_collection_impl
    rw [createTryBody_validate env _ m hv]
    exact ⟨rfl, rfl⟩
  · intro env inp m hv
    unfold _create_collection_with_metadata_impl createWithMetadataTryBody
    cases hl : env.loads inp.metadata with
    | error msg => exact ⟨rfl, rfl⟩
    | ok j =>
      cases j with
      | obj d =>
        rw [hv]
        exact ⟨rfl, rfl⟩
      | null => exact ⟨rfl, rfl⟩
      | bool b => exact ⟨rfl, rfl⟩
      | num k => exact ⟨rfl, rfl⟩
      | str s => exact ⟨rfl, rfl⟩
      | arr a => exact ⟨rfl, rfl⟩
  · intro env inp m hv
    unfold _get_collection_impl
    rw [getTryBody_validate env _ m hv]
    refine ⟨?_, rfl⟩
    show some (getHandler inp.collection_name (.validationError m)).code =
      some INVALID_PARAMS
    rw [getHandler_code_of_valueError inp.collection_name
      (.validationError m) rfl]
  · intro env inp m hv
    rcases hv with hv | ⟨hv1, hv2⟩
    · unfold _rename_collection_impl
      rw [renameTryBody_validate_first env _ _ m hv]
      exact ⟨rfl, rfl⟩
    · unfold _rename_collection_impl
      rw [renameTryBody_validate_second env _ _ m hv1 hv2]
      exact ⟨rfl, rfl⟩
  · intro env inp m hv
    unfold _delete_collection_impl
    rw [deleteTryBody_validate env _ m hv]
    refine ⟨?_, rfl⟩
    show some (deleteHandler inp.collection_name (.validationError m)).code =
      some INVALID_PARAMS
    rw [deleteHandler_code_of_valueError inp.collection_name
      (.validationError m) rfl]
  · intro env inp m hv
    unfold _peek_collection_impl
    rw [peekTryBody_validate env _ m _ hv]
    refine ⟨?_, rfl⟩
    show some (peekHandler inp.collection_name (.validationError m)).code =
      some INVALID_PARAMS
    rw [peekHandler_code_of_valueError inp.collection_name
      (.validationError m) rfl]

/-- An environment whose name validation rejects every name. -/
def envValFail : Env :=
  { validate := fun _ => some (chars "bad name"),
    chromaClient := .ok (), embeddingFn := .ok (), settings := [],
    loads := fun _ => .ok (.obj []), createResult := fun _ _ => .ok collOkC,
    listResult := .ok [], getResult := fun _ => .ok collOkC,
    deleteResult := fun _ => .ok () }

/-- Witness for C6 on a concrete rejecting validator. -/
theorem C6_validate_first_witness :
    (resCode (_create_collection_impl envValFail ⟨chars "c"⟩) =
        some INVALID_PARAMS ∧
      (_create_collection_impl envValFail ⟨chars "c"⟩).2 = []) ∧
    (resCode (_create_collection_with_metadata_impl envValFail
        ⟨chars "c", chars "md"⟩) = some INVALID_PARAMS ∧
      (_create_collection_with_metadata_impl envValFail
        ⟨chars "c", chars "md"⟩).2 = []) ∧
    (resCode (_get_collection_impl envValFail ⟨chars "c"⟩) =
        some INVALID_PARAMS ∧
      (_get_collection_impl envValFail ⟨chars "c"⟩).2 = []) ∧
    (resCode (_rename_collection_impl envValFail ⟨chars "a", chars "b"⟩) =
        some INVALID_PARAMS ∧
      (_rename_collection_impl envValFail ⟨chars "a", chars "b"⟩).2 = []) ∧
    (resCode (_delete_collection_impl envValFail ⟨chars "c"⟩) =
        some INVALID_PARAMS ∧
      (_delete_collection_impl envValFail ⟨chars "c"⟩).2 = []) ∧
    (resCode (_peek_collection_impl envValFail ⟨chars "c", none⟩) =
        some INVALID_PARAMS ∧
      (_peek_collection_impl envValFail ⟨chars "c", none⟩).2 = []) := by
  refine ⟨?_, ?_, ?_, ?_, ?_, ?_⟩
  · exact C6_validate_first.1 envValFail ⟨chars "c"⟩ (chars "bad name") rfl
  · exact C6_validate_first.2.1 envValFail ⟨chars "c", chars "md"⟩
      (chars "bad name") rfl
  · exact C6_validate_first.2.2.1 envValFail ⟨chars "c"⟩
      (chars "bad name") rfl
  · exact C6_validate_first.2.2.2.1 envValFail ⟨chars "a", chars "b"⟩
      (chars "bad name") (Or.inl rfl)
  · exact C6_validate_first.2.2.2.2.1 envValFail ⟨chars "c"⟩
      (chars "bad name") rfl
  · exact C6_validate_first.2.2.2.2.2 envValFail ⟨chars "c", none⟩
      (chars "bad name") rfl

/-! ## Claim C7 -/

/-- Claim C7: for create collection with metadata, a metadata string the
json module cannot parse, or one parsing to a non-object value, raises
McpError with INVALID_PARAMS before any client call; when the string parses
to an object, that parsed dictionary is exactly the metadata argument of the
create_collection client call. -/
theorem C7_metadata_parsing :
    (∀ env (inp : CreateCollectionWithMetadataInput) m,
      env.loads inp.metadata = .error m →
      resCode (_create_collection_with_metadata_impl env inp) =
          some INVALID_PARAMS ∧
        (_create_collection_with_metadata_impl env inp).2 = []) ∧
    (∀ env (inp : CreateCollectionWithMetadataInput) j,
      env.loads inp.metadata = .ok j → (∀ flds, j ≠ .obj flds) →
      resCode (_create_collection_with_metadata_impl env inp) =
          some INVALID_PARAMS ∧
        (_create_collection_with_metadata_impl env inp).2 = []) ∧
    (∀ env (inp : CreateCollectionWithMetadataInput) d,
      env.loads inp.metadata = .ok (.obj d) →
      ∀ nm md, Call.createCollection nm md ∈
        (_create_collection_with_metadata_impl env inp).2 →
        nm = inp.collection_name ∧ md = d) := by
  refine ⟨?_, ?_, ?_⟩
  · intro env inp m hl
    unfold _create_collection_with_metadata_impl createWithMetadataTryBody
    rw [hl]
    exact ⟨rfl, rfl⟩
  · intro env inp j hl hne
    unfold _create_collection_with_metadata_impl createWithMetadataTryBody
    rw [hl]
    cases j with
    | obj d => exact absurd rfl (hne d)
    | null => exact ⟨rfl, rfl⟩
    | bool b => exact ⟨rfl, rfl⟩
    | num k => exact ⟨rfl, rfl⟩
    | str s => exact ⟨rfl, rfl⟩
    | arr a => exact ⟨rfl, rfl⟩
  · intro env inp d hl nm md hmem
    unfold _create_collection_with_metadata_impl
      createWithMetadataTryBody at hmem
    rw [hl] at hmem
    cases hv : env.validate inp.collection_name with
    | some m => simp [hv, wrapErr] at hmem
    | none =>
    simp only [hv] at hmem
    cases he : env.embeddingFn with
    | error e0 => simp [he, wrapErr] at hmem
    | ok u =>
    simp only [he] at hmem
    cases hc : env.chromaClient with
    | error e0 => simp [hc, wrapErr] at hmem
    | ok u2 =>
    simp only [hc] at hmem
    cases hcr : env.createResult inp.collection_name d with
    | error e0 =>
      simp only [hcr, wrapErr, List.mem_singleton] at hmem
      exact ⟨(Call.createCollection.inj hmem).1,
        (Call.createCollection.inj hmem).2⟩
    | ok coll =>
    simp only [hcr] at hmem
    cases hcnt : coll.countResult with
    | error e0 =>
      simp only [hcnt, wrapErr, List.mem_cons, List.not_mem_nil,
        or_false] at hmem
      rcases hmem with hmem | hmem
      · exact ⟨(Call.createCollection.inj hmem).1,
          (Call.createCollection.inj hmem).2⟩
      · cases hmem
    | ok cnt =>
      simp only [hcnt, wrapErr, List.mem_cons, List.not_mem_nil,
        or_false] at hmem
      rcases hmem with hmem | hmem
      · exact ⟨(Call.createCollection.inj hmem).1,
          (Call.createCollection.inj hmem).2⟩
      · cases hmem

/-- An environment whose loads behaves as the json module does on the three
exemplar inputs: a parse failure, a non-object value and an object. -/
def envLoads : Env :=
  { validate := fun _ => none, chromaClient := .ok (), embeddingFn := .ok (),
    settings := [],
    loads := fun s =>
      if s = chars "bad" then .error (chars "Expecting value")
      else if s = chars "7" then .ok (.num 7)
      else .ok (.obj [(chars "k", .str (chars "v"))]),
    createResult := fun _ _ => .ok collOkC, listResult := .ok [],
    getResult := fun _ => .ok collOkC, deleteResult := fun _ => .ok () }

/-- Witness for C7 on the three exemplar metadata strings. -/
theorem C7_metadata_parsing_witness :
    (resCode (_create_collection_with_metadata_impl envLoads
        ⟨chars "c", chars "bad"⟩) = some INVALID_PARAMS ∧
      (_create_collection_with_metadata_impl envLoads
        ⟨chars "c", chars "bad"⟩).2 = []) ∧
    (resCode (_create_collection_with_metadata_impl envLoads
        ⟨chars "c", chars "7"⟩) = some INVALID_PARAMS ∧
      (_create_collection_with_metadata_impl envLoads
        ⟨chars "c", chars "7"⟩).2 = []) ∧
    (Call.createCollection (chars "c") [(chars "k", .str (chars "v"))] ∈
        (_create_collection_with_metadata_impl envLoads
          ⟨chars "c", chars "ok"⟩).2 →
      chars "c" = chars "c" ∧
        [(chars "k", Json.str (chars "v"))] =
          [(chars "k", Json.str (chars "v"))]) := by
  refine ⟨?_, ?_, ?_⟩
  · exact C7_metadata_parsing.1 envLoads ⟨chars "c", chars "bad"⟩
      (chars "Expecting value") rfl
  · exact C7_metadata_parsing.2.1 envLoads ⟨chars "c", chars "7"⟩
      (.num 7) rfl (fun flds h => Json.noConfusion h)
  · exact C7_metadata_parsing.2.2 envLoads ⟨chars "c", chars "ok"⟩
      [(chars "k", .str (chars "v"))] rfl (chars "c")
      [(chars "k", .str (chars "v"))]

/-! ## Claim C8 -/

/-- The filter of the claim: keep, in order, exactly the names whose
lowercased form contains the lowercased filter string; no filtering when the
filter is absent or empty. -/
def specListFiltered (all : List Str) (nc : Option Str) : List Str :=
  match nc with
  | none => all
  | some n =>
    if n = [] then all
    else all.filter (fun x => containsSub (lowerStr x) (lowerStr n))

/-- The page of the claim: the slice filtered[offset : offset + limit], with
the offset treated as 0 when absent and the slice unbounded at the end when
the limit is absent. -/
def specListPage (fl : List Str) (limit offset : Option Nat) : List Str :=
  match limit with
  | none => fl.drop (offset.getD 0)
  | some l => (fl.drop (offset.getD 0)).take l

/-- Claim C8: on every successful list collections call, collection_names is
the filtered list sliced as filtered[offset : offset + limit] and
total_count is the length of the filtered list before pagination; and the
substring test used by the filter means contiguous containment. -/
theorem C8_list_pagination :
    (∀ env (inp : ListCollectionsInput) names,
      env.chromaClient = .ok () → env.listResult = .ok names →
      (_list_collections_impl env inp).1 = .ok [⟨chars "text",
        Json.dumps (.obj
          [(chars "collection_names",
            .arr ((specListPage (specListFiltered names inp.name_contains)
              inp.limit inp.offset).map .str)),
           (chars "total_count",
            .num (specListFiltered names inp.name_contains).length),
           (chars "limit",
            match inp.limit with | some l => .num l | none => .null),
           (chars "offset",
            match inp.offset with | some o => .num o | none => .null)])⟩]) ∧
    (∀ hay needle, containsSub hay needle = true ↔
      ∃ pre post, hay = pre ++ needle ++ post) := by
  constructor
  · intro env inp names hc hl
    rcases inp with ⟨limit, offset, nc⟩
    unfold _list_collections_impl listTryBody specListFiltered specListPage
    rw [hc, hl]
    cases nc <;> cases limit <;> cases offset <;> rfl
  · exact containsSub_iff

/-- An environment listing four collection names. -/
def envListFour : Env :=
  { validate := fun _ => none, chromaClient := .ok (), embeddingFn := .ok (),
    settings := [], loads := fun _ => .ok (.obj []),
    createResult := fun _ _ => .ok collOkC,
    listResult := .ok [chars "apple", chars "banana", chars "apricot",
      chars "avocado"],
    getResult := fun _ => .ok collOkC, deleteResult := fun _ => .ok () }

/-- Witness for C8: filter ap with limit 2 and offset 1 over four names. -/
theorem C8_list_pagination_witness :
    (_list_collections_impl envListFour
      ⟨some 2, some 1, some (chars "ap")⟩).1 = .ok [⟨chars "text",
        Json.dumps (.obj
          [(chars "collection_names",
            .arr ((specListPage (specListFiltered
              [chars "apple", chars "banana", chars "apricot",
                chars "avocado"] (some (chars "ap"))) (some 2)
              (some 1)).map .str)),
           (chars "total_count",
            .num (specListFiltered
              [chars "apple", chars "banana", chars "apricot",
                chars "avocado"] (some (chars "ap"))).length),
           (chars "limit", .num 2),
           (chars "offset", .num 1)])⟩] ∧
    (containsSub (chars "apricot") (chars "rico") = true ↔
      ∃ pre post, chars "apricot" = pre ++ chars "rico" ++ post) := by
  constructor
  · exact C8_list_pagination.1 envListFour
      ⟨some 2, some 1, some (chars "ap")⟩
      [chars "apple", chars "banana", chars "apricot", chars "avocado"]
      rfl rfl
  · exact C8_list_pagination.2 (chars "apricot") (chars "rico")

/-! ## Claim C9 -/

theorem replaceChar_roundtrip : ∀ k : Str, '_' ∉ k →
    replaceChar '_' ':' (replaceChar ':' '_' k) = k := by
  intro k
  induction k with
  | nil => intro _; rfl
  | cons c cs ih =>
    intro hk
    have hc : c ≠ '_' := fun h => hk (by simp [h])
    have hcs : '_' ∉ cs := fun h => hk (List.mem_cons_of_mem _ h)
    simp only [replaceChar, List.map_cons]
    have htail := ih hcs
    simp only [replaceChar] at htail
    rw [htail]
    by_cases h1 : c = ':'
    · simp [h1]
    · simp [h1, hc]

theorem hasPrefixL_append (p r : Str) : hasPrefixL (p ++ r) p = true :=
  (hasPrefixL_iff _ _).mpr ⟨r, rfl⟩

theorem reconstructStep_flat (rec set : List (Str × Json)) (k : Str)
    (v : Json) (hk : '_' ∉ k) :
    reconstructStep (rec, set)
      (chars "chroma:setting:" ++ replaceChar ':' '_' k, v) =
      (rec, dictAssign set k v) := by
  unfold reconstructStep
  dsimp only
  rw [if_pos (hasPrefixL_append (chars "chroma:setting:")
    (replaceChar ':' '_' k))]
  rw [List.drop_left, replaceChar_roundtrip k hk]

theorem foldl_reconstructStep_flat : ∀ (s rec set : List (Str × Json)),
    (∀ kv ∈ s, '_' ∉ kv.1) →
    (flattenSettings s).foldl reconstructStep (rec, set) =
      (rec, s.foldl (fun acc kv => dictAssign acc kv.1 kv.2) set) := by
  intro s
  induction s with
  | nil => intro rec set _; rfl
  | cons kv t ih =>
    intro rec set h
    rcases kv with ⟨k, v⟩
    have hk : '_' ∉ k := h (k, v) (by simp)
    have ht : ∀ kv2 ∈ t, '_' ∉ kv2.1 := fun kv2 hm => h kv2 (by simp [hm])
    unfold flattenSettings
    simp only [List.map_cons, List.foldl_cons]
    rw [reconstructStep_flat rec set k v hk]
    have hrec := ih rec (dictAssign set k v) ht
    unfold flattenSettings at hrec
    exact hrec

theorem hasKey_append (a b : List (Str × Json)) (k : Str) :
    hasKey (a ++ b) k = (hasKey a k || hasKey b k) := by
  unfold hasKey
  exact List.any_append

theorem foldl_dictAssign_fresh : ∀ (s acc : List (Str × Json)),
    (s.map (fun kv => kv.1)).Nodup →
    (∀ kv ∈ s, hasKey acc kv.1 = false) →
    s.foldl (fun a kv => dictAssign a kv.1 kv.2) acc = acc ++ s := by
  intro s
  induction s with
  | nil => intro acc _ _; simp
  | cons kv t ih =>
    intro acc hnd hf
    rcases kv with ⟨k, v⟩
    simp only [List.foldl_cons]
    have hk : hasKey acc k = false := hf (k, v) (by simp)
    have step : dictAssign acc k v = acc ++ [(k, v)] := by
      unfold dictAssign
      rw [if_neg (by simp [hk])]
    rw [step]
    simp only [List.map_cons, List.nodup_cons] at hnd
    have hf2 : ∀ kv2 ∈ t, hasKey (acc ++ [(k, v)]) kv2.1 = false := by
      intro kv2 hm
      have hne : k ≠ kv2.1 := by
        intro heq
        exact hnd.1 (heq ▸ List.mem_map_of_mem (fun kv => kv.1) hm)
      have h1 : hasKey acc kv2.1 = false := hf kv2 (by simp [hm])
      have h2 : hasKey [(k, v)] kv2.1 = false := by
        simp [hasKey, hne]
      rw [hasKey_append, h1, h2]
      rfl
    rw [ih (acc ++ [(k, v)]) hnd.2 hf2]
    simp

/-- Claim C9: for a non-empty settings dictionary whose keys hold no
underscore, reconstructing the flattened form recovers exactly the original
dictionary under the settings key. -/
theorem C9_settings_roundtrip (s : List (Str × Json)) (hne : s ≠ [])
    (hnd : (s.map (fun kv => kv.1)).Nodup)
    (hund : ∀ kv ∈ s, '_' ∉ kv.1) :
    _reconstruct_metadata (some (flattenSettings s)) =
      [(chars "settings", .obj s)] := by
  have hfe : (flattenSettings s).isEmpty = false := by
    cases s with
    | nil => exact absurd rfl hne
    | cons kv t => rfl
  have hse : s.isEmpty = false := by
    cases s with
    | nil => exact absurd rfl hne
    | cons kv t => rfl
  simp only [_reconstruct_metadata]
  rw [if_neg (show ¬((flattenSettings s).isEmpty = true) by simp [hfe])]
  try dsimp only
  rw [foldl_reconstructStep_flat s [] [] hund,
    foldl_dictAssign_fresh s [] hnd (fun kv _ => rfl)]
  simp only [List.nil_append]
  rw [if_neg (show ¬(s.isEmpty = true) by simp [hse])]
  unfold dictAssign
  rw [if_neg (by simp [hasKey])]
  rfl

/-- Witness for C9 on a two-entry settings dictionary with colon keys. -/
theorem C9_settings_roundtrip_witness :
    _reconstruct_metadata (some (flattenSettings
      [(chars "hnsw:space", Json.str (chars "cosine")),
       (chars "hnsw:ef", Json.num 10)])) =
      [(chars "settings", .obj
        [(chars "hnsw:space", Json.str (chars "cosine")),
         (chars "hnsw:ef", Json.num 10)])] := by
  exact C9_settings_roundtrip
    [(chars "hnsw:space", Json.str (chars "cosine")),
     (chars "hnsw:ef", Json.num 10)]
    (List.cons_ne_nil _ _) (by decide) (by decide)

/-! ## Claim C10 -/

/-- Whether a JSON value is an object holding the given key. -/
def jsonHasKey : Json → Str → Bool
  | .obj fields, k => hasKey fields k
  | _, _ => false

theorem hasKey_removeKey (d : List (Str × Json)) (k : Str) :
    hasKey (removeKey d k) k = false := by
  unfold hasKey removeKey
  rw [List.any_eq_false]
  intro x hx
  have hxk := (List.mem_filter.mp hx).2
  simp only [Bool.not_eq_eq_eq_not, Bool.not_true, decide_eq_false_iff_not]
    at hxk
  simp only [decide_eq_true_eq]
  exact hxk

theorem getPeekProcessed_ok_no_embeddings
    (pv : Option (List (Str × Json))) :
    jsonHasKey (getPeekProcessed (.ok pv)) (chars "embeddings") = false := by
  cases pv with
  | none => rfl
  | some d =>
    simp only [getPeekProcessed]
    split
    next => simp only [jsonHasKey]; exact hasKey_removeKey d _
    next hcond =>
      simp only [jsonHasKey]
      cases d with
      | nil => rfl
      | cons kv t =>
        by_cases hk : hasKey (kv :: t) (chars "embeddings") = true
        · exact absurd (by simp [hk]) hcond
        · simpa using hk

theorem getTryBody_full (env : Env) (n : Str) (coll : CollectionObj)
    (cnt : Int) (hv : env.validate n = none) (hc : env.chromaClient = .ok ())
    (he : env.embeddingFn = .ok ()) (hg : env.getResult n = .ok coll)
    (hcnt : coll.countResult = .ok cnt) :
    getTryBody env n = (.ok [⟨chars "text", Json.dumps (.obj
      [(chars "name", .str coll.name), (chars "id", .str coll.id),
       (chars "metadata", .obj (_reconstruct_metadata coll.metadata)),
       (chars "count", .num cnt),
       (chars "sample_entries", getPeekProcessed (coll.peekResult 5))])⟩],
     [.getCollection n, .count, .peek 5]) := by
  unfold getTryBody
  simp only [hv, hc, he, hg, hcnt]

/-- Claim C10: once get_collection and count have succeeded, get collection
succeeds whatever the peek call does; a peek exception is reported inside
sample_entries as an error dictionary, and a successful peek never leaves an
embeddings key in sample_entries. -/
theorem C10_get_peek_tolerant :
    ∀ env (inp : GetCollectionInput) coll cnt,
      env.validate inp.collection_name = none →
      env.chromaClient = .ok () → env.embeddingFn = .ok () →
      env.getResult inp.collection_name = .ok coll →
      coll.countResult = .ok cnt →
      ((_get_collection_impl env inp).1 = .ok [⟨chars "text",
        Json.dumps (.obj
          [(chars "name", .str coll.name), (chars "id", .str coll.id),
           (chars "metadata", .obj (_reconstruct_metadata coll.metadata)),
           (chars "count", .num cnt),
           (chars "sample_entries",
            getPeekProcessed (coll.peekResult 5))])⟩] ∧
       (∀ e, coll.peekResult 5 = .error e →
         getPeekProcessed (coll.peekResult 5) = .obj [(chars "error",
           .str (chars "Could not peek: " ++ excStr e))]) ∧
       (∀ pv, coll.peekResult 5 = .ok pv →
         jsonHasKey (getPeekProcessed (coll.peekResult 5))
           (chars "embeddings") = false)) := by
  intro env inp coll cnt hv hc he hg hcnt
  refine ⟨?_, ?_, ?_⟩
  · unfold _get_collection_impl
    rw [getTryBody_full env _ coll cnt hv hc he hg hcnt]
    rfl
  · intro e hp
    rw [hp]
    rfl
  · intro pv hp
    rw [hp]
    exact getPeekProcessed_ok_no_embeddings pv

/-- A collection whose peek raises a generic exception. -/
def collPeekBoom : CollectionObj :=
  { name := chars "c", id := chars "1", metadata := none,
    countResult := .ok 0,
    peekResult := fun _ => .error (.otherExc (chars "oops")),
    modifyResult := fun _ => .ok () }

/-- An environment returning the peek-failing collection. -/
def envPeekBoom : Env :=
  { validate := fun _ => none, chromaClient := .ok (), embeddingFn := .ok (),
    settings := [], loads := fun _ => .ok (.obj []),
    createResult := fun _ _ => .ok collOkC, listResult := .ok [],
    getResult := fun _ => .ok collPeekBoom, deleteResult := fun _ => .ok () }

/-- A collection whose peek returns a dictionary holding an embeddings
key. -/
def collEmb : CollectionObj :=
  { name := chars "c", id := chars "1", metadata := none,
    countResult := .ok 0,
    peekResult := fun _ => .ok (some [(chars "ids", .arr []),
      (chars "embeddings", .arr [])]),
    modifyResult := fun _ => .ok () }

/-- An environment returning the embeddings-bearing collection. -/
def envEmb : Env :=
  { validate := fun _ => none, chromaClient := .ok (), embeddingFn := .ok (),
    settings := [], loads := fun _ => .ok (.obj []),
    createResult := fun _ _ => .ok collOkC, listResult := .ok [],
    getResult := fun _ => .ok collEmb, deleteResult := fun _ => .ok () }

/-- Witness for C10: a concrete failing peek still lets get collection
return normally with the error dictionary, and a concrete successful peek
with an embeddings entry loses that entry. -/
theorem C10_get_peek_tolerant_witness :
    (_get_collection_impl envPeekBoom ⟨chars "c"⟩).1 = .ok [⟨chars "text",
      Json.dumps (.obj
        [(chars "name", .str (chars "c")), (chars "id", .str (chars "1")),
         (chars "metadata", .obj []), (chars "count", .num 0),
         (chars "sample_entries", .obj [(chars "error",
           .str (chars "Could not peek: oops"))])])⟩] ∧
    jsonHasKey (getPeekProcessed (collEmb.peekResult 5))
      (chars "embeddings") = false := by
  constructor
  · exact (C10_get_peek_tolerant envPeekBoom ⟨chars "c"⟩ collPeekBoom 0
      rfl rfl rfl rfl rfl).1
  · exact (C10_get_peek_tolerant envEmb ⟨chars "c"⟩ collEmb 0
      rfl rfl rfl rfl rfl).2.2 (some [(chars "ids", .arr []),
        (chars "embeddings", .arr [])]) rfl

end ChromaMcp
